import Mathlib

/-
  Verification development for the Salesforce data-transfer engine
  (src/src/salesforce/dataTransferService.ts).

  The TypeScript service is shallowly embedded: JavaScript objects
  (records) become association lists of string keys to a small value
  type, remote calls become an explicit environment of response
  functions, the async/exception control flow becomes an explicit
  state-and-except monad, and the mutable TransferResult / identifier
  map become fields of the threaded state.  Connections are assumed
  initialized (the claims under study all live past that point); the
  wrapping of thrown Error objects into strings elides the "Error: "
  prefix JavaScript template interpolation would add, which no claim
  depends on.
-/

set_option autoImplicit false

namespace SF

/-! ### Character and string primitives

All string scanning is done over `String.data` (lists of characters) so
that every definition reduces inside the kernel. -/

def isWordChar (c : Char) : Bool :=
  (Char.ofNat 97 ≤ c && c ≤ Char.ofNat 122) ||
  (Char.ofNat 65 ≤ c && c ≤ Char.ofNat 90) ||
  (Char.ofNat 48 ≤ c && c ≤ Char.ofNat 57) ||
  c = Char.ofNat 95

/-- Whitespace characters recognised by the JavaScript regex class used in
the source (space, tab, newline, carriage return, vertical tab, form feed). -/
def jsWs (c : Char) : Bool :=
  c = Char.ofNat 32 || c = Char.ofNat 9 || c = Char.ofNat 10 ||
  c = Char.ofNat 13 || c = Char.ofNat 11 || c = Char.ofNat 12

def toLowerCh (c : Char) : Char :=
  if Char.ofNat 65 ≤ c && c ≤ Char.ofNat 90 then Char.ofNat (c.toNat + 32) else c

/-- String suffix test, case sensitive. -/
def strEndsWith (s suf : String) : Bool :=
  suf.data.isSuffixOf s.data

/-- String suffix test, case insensitive (the `/(Date|Time)$/i` regex of
`removeSystemFields`); the suffix argument is given in lower case. -/
def endsWithCI (s suf : String) : Bool :=
  suf.data.isSuffixOf (s.data.map toLowerCh)

/-- Substring containment over character lists. -/
def listContainsSub (pat : List Char) : List Char → Bool
  | [] => pat.isEmpty
  | c :: cs => pat.isPrefixOf (c :: cs) || listContainsSub pat cs

/-- Substring containment (JavaScript `String.prototype.includes`). -/
def containsSub (s sub : String) : Bool :=
  listContainsSub sub.data s.data

/-- JavaScript `String.prototype.trim` (over the JS whitespace class). -/
def strTrim (s : String) : String :=
  ⟨((s.data.dropWhile jsWs).reverse.dropWhile jsWs).reverse⟩

/-- `Array.prototype.join(", ")`. -/
def joinCommaSp : List String → String
  | [] => ""
  | [s] => s
  | s :: rest => s ++ ", " ++ joinCommaSp rest

/-- `Array.prototype.join(",")`. -/
def joinComma : List String → String
  | [] => ""
  | [s] => s
  | s :: rest => s ++ "," ++ joinComma rest

/-- `Array.prototype.join("; ")`. -/
def joinSemi : List String → String
  | [] => ""
  | [s] => s
  | s :: rest => s ++ "; " ++ joinSemi rest

/-- `Array.prototype.join(" ")`. -/
def joinSpace : List String → String
  | [] => ""
  | [s] => s
  | s :: rest => s ++ " " ++ joinSpace rest

/-- `String(v).replace(/'/g, "\\'")`: escape single quotes. -/
def escapeQ (s : String) : String :=
  ⟨s.data.flatMap (fun c =>
    if c = Char.ofNat 39 then [Char.ofNat 92, Char.ofNat 39] else [c])⟩

/-- Wrap an id in single quotes, as the `WHERE Id IN (...)` clauses do. -/
def quoteId (s : String) : String :=
  "\x27" ++ s ++ "\x27"

/-- First-occurrence deduplication: the effect of `[...new Set(xs)]`. -/
def dedupFirstAux : List String → List String → List String
  | _, [] => []
  | seen, x :: xs =>
    if seen.contains x then dedupFirstAux seen xs
    else x :: dedupFirstAux (x :: seen) xs

def dedupFirst (l : List String) : List String :=
  dedupFirstAux [] l

/-! ### Record values

A JavaScript record is an association list from field names to values.
`Val` covers the value shapes the service distinguishes: its code only
ever branches on truthiness, on `typeof v === "string"`, and coerces
values to property-key strings. -/

inductive Val where
  | vstr (s : String)
  | vnum (n : Int)
  | vbool (b : Bool)
  | vnull
deriving DecidableEq, Repr

/-- JavaScript truthiness for the values `Val` models. -/
def truthy : Val → Bool
  | .vstr s => s ≠ ""
  | .vnum n => n ≠ 0
  | .vbool b => b
  | .vnull => false

def isStringVal : Val → Bool
  | .vstr _ => true
  | _ => false

/-- JavaScript string coercion, as used when a value indexes an object. -/
def asKey : Val → String
  | .vstr s => s
  | .vnum n => toString n
  | .vbool b => if b then "true" else "false"
  | .vnull => "null"

abbrev Rec := List (String × Val)

def getKey (r : Rec) (k : String) : Option Val :=
  (r.find? (fun kv => kv.1 == k)).map (·.2)

/-- JavaScript property assignment `r[k] = v`: overwrite in place if the
key exists, otherwise append. -/
def setKey (r : Rec) (k : String) (v : Val) : Rec :=
  if (r.find? (fun kv => kv.1 == k)).isSome then
    r.map (fun kv => if kv.1 == k then (k, v) else kv)
  else r ++ [(k, v)]

/-- The key under which `idMapping[parentRecord.Id]` stores an entry;
a missing `Id` coerces to the property key "undefined" in JavaScript. -/
def recIdKey (r : Rec) : String :=
  match getKey r "Id" with
  | some v => asKey v
  | none => "undefined"

/-! ### removeSystemFields (the record sanitizer) -/

def systemFields : List String :=
  ["Id", "attributes", "CreatedDate", "CreatedById", "LastModifiedDate",
   "LastModifiedById", "SystemModstamp", "LastActivityDate", "LastViewedDate",
   "LastReferencedDate", "Owner", "IsDeleted", "MasterRecordId",
   "ConnectionReceivedId", "ConnectionSentId", "PhotoUrl"]

def systemTimestamps : List String :=
  ["LastLoginDate", "LastPasswordChangeDate", "EmailBouncedDate"]

def dateTimeSuffix (k : String) : Bool :=
  endsWithCI k "date" || endsWithCI k "time"

/-- The three deletion passes of `removeSystemFields`, combined into one
filter: fixed system fields, keys ending in the read-only "__pc" suffix,
and string-valued keys matching `/(Date|Time)$/i` that are on the
system-timestamp list. -/
def removeSystemFields (r : Rec) : Rec :=
  r.filter (fun kv =>
    !(systemFields.contains kv.1) &&
    !(strEndsWith kv.1 "__pc") &&
    !(dateTimeSuffix kv.1 && isStringVal kv.2 && systemTimestamps.contains kv.1))

/-! ### Field metadata and the insertability predicate -/

structure Field where
  name : String
  ftype : String
  createable : Bool
  updateable : Bool
  calculated : Bool
  autoNumber : Bool
  relationshipName : Option String
  referenceTo : List String
deriving DecidableEq, Repr

def systemFieldNamesForInsert : List String :=
  ["Owner", "CreatedDate", "CreatedById", "LastModifiedDate", "LastModifiedById",
   "SystemModstamp", "LastActivityDate", "LastViewedDate", "LastReferencedDate",
   "IsDeleted", "MasterRecordId", "PhotoUrl"]

def isInsertableField (f : Field) : Bool :=
  !(systemFieldNamesForInsert.contains f.name) &&
  !(strEndsWith f.name "__pc") &&
  !f.calculated &&
  f.ftype ≠ "formula"

/-- Truthiness of an optional relationship name (`field.relationshipName`). -/
def relTruthy : Option String → Bool
  | some s => s ≠ ""
  | none => false

/-! ### Extraction query construction (`transferObjectRecords`) -/

def extractionBaseFieldNames (md : List Field) : List String :=
  (md.filter (fun f => f.createable || f.updateable)).map Field.name

def extractionRelNames (md : List Field) : List String :=
  (md.filter (fun f => f.ftype == "reference" && relTruthy f.relationshipName)).map
    (fun f => f.relationshipName.getD "")

def buildExtractionQuery (objectType : String) (md : List Field)
    (includeRel : Bool) (limitClause : String) : String :=
  let baseFields := joinCommaSp (extractionBaseFieldNames md)
  let relNames := joinCommaSp (extractionRelNames md)
  let relationshipFields := if includeRel && relNames ≠ "" then ", " ++ relNames else ""
  "SELECT " ++ baseFields ++ relationshipFields ++ " FROM " ++ objectType ++ limitClause

/-! ### parseFromObject: the regex `\bFROM\s+([a-zA-Z0-9_]+)\b`, scanned
left to right with case-insensitive FROM and a word boundary before it. -/

def matchFromAt : List Char → Option String
  | c1 :: c2 :: c3 :: c4 :: rest =>
    if (c1 = 'F' || c1 = 'f') && (c2 = 'R' || c2 = 'r') &&
       (c3 = 'O' || c3 = 'o') && (c4 = 'M' || c4 = 'm') then
      match rest with
      | [] => none
      | c5 :: _ =>
        if jsWs c5 then
          let word := (rest.dropWhile jsWs).takeWhile isWordChar
          if word.isEmpty then none else some ⟨word⟩
        else none
    else none
  | _ => none

def scanFrom : Bool → List Char → Option String
  | _, [] => none
  | prevIsWord, c :: cs =>
    match (if prevIsWord then none else matchFromAt (c :: cs)) with
    | some w => some w
    | none => scanFrom (isWordChar c) cs

def parseFromObject (soql : String) : Option String :=
  scanFrom false soql.data

/-! ### Error stringification (`stringifyErrors`) -/

/- The shapes of failure payloads the service distinguishes: plain
strings, Error instances (carrying a message), arrays, structured
objects with message/status/fields, and the null/undefined primitives.
Arrays are a mutually defined list so that `stringifyErrors` is
structurally recursive and reduces in the kernel. -/
mutual

inductive ErrVal where
  | estr (s : String)
  | eerr (msg : String)
  | earr (l : ErrList)
  | eobj (message : Option String) (status : Option Int) (fields : Option (List String))
  | enull
  | eundef

inductive ErrList where
  | nil
  | cons (e : ErrVal) (rest : ErrList)

end

def ErrList.ofList : List ErrVal → ErrList
  | [] => .nil
  | e :: es => .cons e (ErrList.ofList es)

/-- Literal ": Field name provided", the tail of the cleanup regex. -/
def litFNP : List Char := (": Field name provided").data

/-- Greedy backtracking step of `/(\w+__c): Field name provided/`: the
longest word-character run from the current position that ends in "__c"
and is followed by the literal tail; returns the matched word length. -/
def tryK (l : List Char) : Nat → Option Nat
  | 0 => none
  | k + 1 =>
    if (k + 1 ≤ (l.takeWhile isWordChar).length) &&
       ['_', '_', 'c'].isSuffixOf (l.take (k + 1)) &&
       litFNP.isPrefixOf (l.drop (k + 1)) then
      some (k + 1)
    else tryK l k

/-- Global scan of `/(\w+__c): Field name provided/g`, collecting the
`split(":")[0]` head of each match. -/
def collectFieldMatches : List Char → List String
  | [] => []
  | c :: cs =>
    match tryK (c :: cs) ((c :: cs).takeWhile isWordChar).length with
    | some k =>
      -- litFNP has 21 characters, so the scan advances by at least 21.
      ⟨(c :: cs).take k⟩ :: collectFieldMatches ((c :: cs).drop (k + 21))
    | none => collectFieldMatches cs
termination_by l => l.length
decreasing_by
  · simp only [List.length_drop, List.length_cons]
    omega
  · simp

/-- The repetitive-Salesforce-error cleanup applied to object messages. -/
def cleanMessage (m : String) : String :=
  if containsSub m "Field name provided" && decide (200 < m.length) then
    let fieldMatches := collectFieldMatches m.data
    if 1 < fieldMatches.length then
      "Multiple fields have External ID/indexing issues: " ++
        joinCommaSp fieldMatches ++ ". Check field configurations."
    else m
  else m

/-- Rendering of `JSON.stringify` for the object shape (string escaping
inside values is not modelled; no message in this service contains
characters needing it). -/
def jsonOfEobj (message : Option String) (status : Option Int)
    (fields : Option (List String)) : String :=
  let q := "\x22"
  let parts :=
    (match message with
     | some m => [q ++ "message" ++ q ++ ":" ++ q ++ m ++ q]
     | none => []) ++
    (match status with
     | some s => [q ++ "statusCode" ++ q ++ ":" ++ toString s]
     | none => []) ++
    (match fields with
     | some fs => [q ++ "fields" ++ q ++ ":[" ++ joinComma (fs.map (fun f => q ++ f ++ q)) ++ "]"]
     | none => [])
  "\x7b" ++ joinComma parts ++ "\x7d"

mutual

def stringifyErrors : ErrVal → String
  | .estr s => s
  | .eerr msg => msg
  | .earr l =>
    let errors := (stringifyEach l).filter (fun s => s ≠ "")
    let uniqueErrors := dedupFirst errors
    if uniqueErrors.length = 1 ∧ 1 < errors.length then
      uniqueErrors.headD "" ++ " (occurred " ++ toString errors.length ++ " times)"
    else joinSemi uniqueErrors
  | .eobj message status fields =>
    let pieces : List String :=
      (match message with
       | some m => if m ≠ "" then [cleanMessage m] else []
       | none => []) ++
      (match status with
       | some s => if s ≠ 0 then ["code=" ++ toString s] else []
       | none => []) ++
      (match fields with
       | some fs => if fs.length ≠ 0 then ["fields=" ++ joinComma fs] else []
       | none => [])
    if pieces.length ≠ 0 then joinSpace pieces
    else jsonOfEobj message status fields
  | .enull => "null"
  | .eundef => "undefined"

/-- The element-wise `err.map(e => this.stringifyErrors(e))`. -/
def stringifyEach : ErrList → List String
  | .nil => []
  | .cons e rest => stringifyErrors e :: stringifyEach rest

end

def errOrUnknown (e : ErrVal) : String :=
  let s := stringifyErrors e
  if s = "" then "Unknown error" else s

/-! ### Transfer configuration and result -/

inductive Mode where
  | insert
  | upsert
deriving DecidableEq, Repr

/-- `DataTransferOptions`.  The two org handles are replaced by the
environment below; `transferMode` is optional because the TypeScript
field may be left undefined and is defaulted at the top of
`transferData`. -/
structure DataTransferOptions where
  objectTypes : Option (List String)
  includeRelationships : Bool
  batchSize : Nat
  recordLimits : Option (List (String × Nat))
  customQuery : Option String
  externalIdMapping : Option (List (String × String))
  transferMode : Option Mode
deriving Repr

structure TransferResult where
  success : Bool
  recordsTransferred : Nat
  errors : List String
deriving DecidableEq, Repr

/-- One remote call, as observed at the REST client boundary. -/
inductive Call where
  | srcDescribe (t : String)
  | srcQuery (q : String)
  | tgtQuery (q : String)
  | tgtCreate (t : String) (n : Nat)
deriving DecidableEq, Repr

/-- Result of a single-record create (`{success, id, errors}`), also
the per-record entries of a composite create response. -/
structure SaveResult where
  success : Bool
  id : Option String
  errors : ErrVal

/-- What `create` returns: a lone object for a 1-record call, an array
for a composite call.  The REST client picks the endpoint from the
batch size, so the response shape follows it. -/
inductive CreateResult where
  | single (s : SaveResult)
  | multi (l : List SaveResult)

/-- Responses of the two remote systems, fixed for a run. -/
structure Env where
  describeRes : String → Except String (List Field)
  queryRes : String → Except String (List Rec)
  tgtQueryRes : String → Except String (List Rec)
  createSingle : String → Rec → Except String SaveResult
  createMulti : String → List Rec → Except String (List SaveResult)

/-- The source-to-target identifier map (`Record<string, string>`; values
are kept as `Val` because JavaScript stores whatever `records[0].Id` was). -/
abbrev IdMap := List (String × Val)

def idLookup (m : IdMap) (k : String) : Option Val :=
  (m.find? (fun kv => kv.1 == k)).map (·.2)

def idSet (m : IdMap) (k : String) (v : Val) : IdMap :=
  if (m.find? (fun kv => kv.1 == k)).isSome then
    m.map (fun kv => if kv.1 == k then (k, v) else kv)
  else m ++ [(k, v)]

/-- Run-scoped mutable state: the accumulated `TransferResult`, the log
of remote calls, and the per-batch parent identifier map. -/
structure St where
  result : TransferResult
  calls : List Call
  idMapping : IdMap

/-- Sequential, exception-propagating computation over the run state:
the shape of the service's async methods. -/
def M (α : Type) : Type := St → Except String α × St

instance : Monad M where
  pure a := fun st => (.ok a, st)
  bind x f := fun st =>
    match x st with
    | (.ok a, st1) => f a st1
    | (.error e, st1) => (.error e, st1)

/-- `throw new Error(msg)`. -/
def throwM {α : Type} (e : String) : M α := fun st => (.error e, st)

/-- `try ... catch (e) ...`. -/
def attempt {α : Type} (x : M α) (h : String → M α) : M α := fun st =>
  match x st with
  | (.ok a, st1) => (.ok a, st1)
  | (.error e, st1) => h e st1

def logCall (c : Call) : M Unit := fun st =>
  (.ok (), {st with calls := st.calls ++ [c]})

def pushError (msg : String) : M Unit := fun st =>
  (.ok (), {st with result := {st.result with errors := st.result.errors ++ [msg]}})

def addTransferred (n : Nat) : M Unit := fun st =>
  (.ok (), {st with result := {st.result with
    recordsTransferred := st.result.recordsTransferred + n}})

def getResult : M TransferResult := fun st => (.ok st.result, st)

def resetIdMapping : M Unit := fun st => (.ok (), {st with idMapping := []})

def putIdEntry (k : String) (v : Val) : M Unit := fun st =>
  (.ok (), {st with idMapping := idSet st.idMapping k v})

def getIdMapping : M IdMap := fun st => (.ok st.idMapping, st)

/-- `result.success = result.errors.length === 0; return result`. -/
def finishSuccess : M TransferResult := fun st =>
  (.ok {st.result with success := st.result.errors.isEmpty},
   {st with result := {st.result with success := st.result.errors.isEmpty}})

/-- Sequential `for`-loop over a list (each TypeScript `for ... of`). -/
def seqList {α : Type} : List α → (α → M Unit) → M Unit
  | [], _ => pure ()
  | x :: xs, f => do
    f x
    seqList xs f

/-- Sequential fold (loops that accumulate a value). -/
def foldListM {α β : Type} : List α → β → (β → α → M β) → M β
  | [], b, _ => pure b
  | x :: xs, b, f => do
    let b1 ← f b x
    foldListM xs b1 f

/-! ### The REST client boundary -/

def srcDescribe (env : Env) (t : String) : M (List Field) := do
  logCall (.srcDescribe t)
  match env.describeRes t with
  | .ok md => pure md
  | .error e => throwM e

def srcQuery (env : Env) (q : String) : M (List Rec) := do
  logCall (.srcQuery q)
  match env.queryRes q with
  | .ok rs => pure rs
  | .error e => throwM e

def tgtQuery (env : Env) (q : String) : M (List Rec) := do
  logCall (.tgtQuery q)
  match env.tgtQueryRes q with
  | .ok rs => pure rs
  | .error e => throwM e

/-- `SalesforceRestClient.create`: one record posts to the sobject
endpoint, several to the composite endpoint. -/
def tgtCreate (env : Env) (t : String) (rs : List Rec) : M CreateResult := do
  logCall (.tgtCreate t rs.length)
  match rs with
  | [r] =>
    match env.createSingle t r with
    | .ok s => pure (.single s)
    | .error e => throwM e
  | _ =>
    match env.createMulti t rs with
    | .ok l => pure (.multi l)
    | .error e => throwM e

/-! ### Batching -/

def chunksGo {α : Type} (b : Nat) : Nat → List α → List (List α)
  | 0, _ => []
  | _, [] => []
  | fuel + 1, l => l.take b :: chunksGo b fuel (l.drop b)

/-- `for (let i = 0; i < l.length; i += b) { l.slice(i, i + b) }`.
The fuel never runs out when `1 ≤ b`. -/
def chunks {α : Type} (b : Nat) (l : List α) : List (List α) :=
  chunksGo b l.length l

/-! ### Relationship resolution -/

/-- Fields with `type === "reference"` and a non-empty `referenceTo`. -/
def referenceFieldsOf (md : List Field) : List Field :=
  md.filter (fun f => f.ftype == "reference" && !f.referenceTo.isEmpty)

/-- Collect `(parentObject, parentId)` pairs across the batch: the value
must be a non-empty string and the first declared reference target must
be truthy. -/
def collectParentPairs (refFields : List Field) (batch : List Rec) :
    List (String × String) :=
  batch.flatMap (fun rec0 => refFields.filterMap (fun ref =>
    match getKey rec0 ref.name with
    | some (.vstr s) =>
      if s ≠ "" && ref.referenceTo.headD "" ≠ "" then
        some (ref.referenceTo.headD "", s)
      else none
    | _ => none))

def lookupStr (m : List (String × String)) (k : String) : Option String :=
  (m.find? (fun kv => kv.1 == k)).map (·.2)

def lookupNat (m : List (String × Nat)) (k : String) : Option Nat :=
  (m.find? (fun kv => kv.1 == k)).map (·.2)

/-- Fetch parent records from the source in id-chunks of 1000, keeping
every returned record. -/
def fetchParentChunks (env : Env) (mkSoql : List String → String)
    (ids : List String) : M (List Rec) :=
  foldListM (chunks 1000 ids) [] (fun acc chunk => do
    let rs ← srcQuery env (mkSoql chunk)
    pure (acc ++ rs))

def idInClause (ids : List String) : String :=
  joinCommaSp (ids.map quoteId)

/-- Truthiness of `insertedRecord.id`. -/
def idTruthy : Option String → Bool
  | some s => s ≠ ""
  | none => false

/-- Does the first metadata field with this name have reference type?
Used to strip lookup fields off parent payloads. -/
def isRefName (md : List Field) (k : String) : Bool :=
  match md.find? (fun f => f.name == k) with
  | some f => f.ftype == "reference"
  | none => false

def dropReferenceKeys (md : List Field) (r : Rec) : Rec :=
  r.filter (fun kv => !(isRefName md kv.1))

/-- The per-index loop over a composite insert response in
`handleInsertModeParents`: record the new id on success, push an error
otherwise.  Reading `parentRecords[i].Id` past the end of the fetched
records raises a TypeError, caught by the surrounding handler. -/
def recordParentInsertResults (parentObject : String)
    (parentRecords : List Rec) (l : List SaveResult) : M Unit :=
  seqList (List.range l.length) (fun i => do
    match l[i]? with
    | none => pure ()
    | some inserted =>
      if inserted.success && idTruthy inserted.id then
        match parentRecords[i]? with
        | none => throwM "TypeError: Cannot read properties of undefined (reading Id)"
        | some original =>
          putIdEntry (recIdKey original) (.vstr (inserted.id.getD ""))
      else
        pushError ("Failed to insert parent " ++ parentObject ++ ": " ++
          stringifyErrors inserted.errors))

/-- Insert mode: create parent records in the target, mapping source ids
to the newly created ids. -/
def handleInsertModeParents (env : Env) (parentObject : String)
    (parentIds : List String) : M Unit :=
  attempt (do
    let parentDescribe ← srcDescribe env parentObject
    let insertableFields := (parentDescribe.filter (fun f =>
      f.createable && !f.autoNumber && f.name ≠ "Id" && isInsertableField f)).map Field.name
    if insertableFields.length = 0 then pure ()
    else do
      let parentRecords ← fetchParentChunks env (fun chunk =>
        "SELECT Id, " ++ joinCommaSp insertableFields ++ " FROM " ++ parentObject ++
          " WHERE Id IN (" ++ idInClause chunk ++ ")") parentIds
      if parentRecords.length = 0 then pure ()
      else do
        let cleanParents := parentRecords.map (fun record =>
          dropReferenceKeys parentDescribe (removeSystemFields record))
        let insertResult ← tgtCreate env parentObject cleanParents
        match insertResult with
        | .multi l => recordParentInsertResults parentObject parentRecords l
        | .single _ => pure ())
    (fun e => pushError ("Error handling insert mode parents for " ++ parentObject ++
      ": " ++ stringifyErrors (.estr e)))

def noExtIdMsg (parentObject : String) : String :=
  "No external ID field specified for " ++ parentObject ++
    ". Please configure external ID mapping for upsert mode."

/-- Upsert mode: match parents in the target by the user-configured
external-id field; never creates anything. -/
def handleUpsertModeParents (env : Env) (parentObject : String)
    (parentIds : List String) (opts : DataTransferOptions) : M Unit :=
  match opts.externalIdMapping with
  | none => pure ()
  | some mapping =>
    match lookupStr mapping parentObject with
    | none => pushError (noExtIdMsg parentObject)
    | some ext =>
      if ext = "" then pushError (noExtIdMsg parentObject)
      else
        attempt (do
          let parentRecords ← fetchParentChunks env (fun chunk =>
            "SELECT Id, " ++ ext ++ " FROM " ++ parentObject ++
              " WHERE Id IN (" ++ idInClause chunk ++ ")") parentIds
          seqList parentRecords (fun p => do
            match getKey p ext with
            | none => pure ()
            | some v =>
              if truthy v then
                attempt (do
                  let targetRecords ← tgtQuery env ("SELECT Id FROM " ++ parentObject ++
                    " WHERE " ++ ext ++ " = \x27" ++ escapeQ (asKey v) ++ "\x27")
                  match targetRecords with
                  | [] => pushError ("Parent record " ++ parentObject ++ " with " ++ ext ++
                      " = \x27" ++ asKey v ++
                      "\x27 not found in target org. Consider running parent transfer first.")
                  | r0 :: _ => putIdEntry (recIdKey p) ((getKey r0 "Id").getD .vnull))
                  (fun e => pushError ("Error looking up parent " ++ parentObject ++
                    " by " ++ ext ++ ": " ++ stringifyErrors (.estr e)))
              else pure ()))
          (fun e => pushError ("Error handling upsert mode parents for " ++ parentObject ++
            ": " ++ stringifyErrors (.estr e)))

/-- `ensureParentRecordsExistNew`: group referenced parent ids by parent
entity type (first declared target only) and dispatch per transfer mode;
the fresh per-batch identifier map lives in the state. -/
def ensureParentRecordsExistNew (env : Env) (objectType : String) (md : List Field)
    (batch : List Rec) (opts : DataTransferOptions) : M IdMap :=
  let refFields := referenceFieldsOf md
  if refFields.isEmpty then pure []
  else do
    resetIdMapping
    let pairs := collectParentPairs refFields batch
    seqList (dedupFirst (pairs.map Prod.fst)) (fun parentObject => do
      let ids := dedupFirst ((pairs.filter (fun pr => pr.1 == parentObject)).map Prod.snd)
      if ids.isEmpty then pure ()
      else
        match opts.transferMode with
        | some .insert => handleInsertModeParents env parentObject ids
        | some .upsert => handleUpsertModeParents env parentObject ids opts
        | none => pure ())
    getIdMapping

/-! ### Batch writing -/

/-- One reference field of the lookup-remap loop:
`if (srcId && idMap[srcId]) cleaned[ref.name] = idMap[srcId]`. -/
def remapStep (idMap : IdMap) (original : Rec) (acc : Rec) (ref : Field) : Rec :=
  match getKey original ref.name with
  | some v =>
    if truthy v then
      match idLookup idMap (asKey v) with
      | some tv => if truthy tv then setKey acc ref.name tv else acc
      | none => acc
    else acc
  | none => acc

/-- The lookup-remap loop over all reference fields of one record. -/
def remapRecord (refFields : List Field) (idMap : IdMap)
    (cleaned original : Rec) : Rec :=
  refFields.foldl (remapStep idMap original) cleaned

def remapBatch (refFields : List Field) (idMap : IdMap)
    (cleaned batch : List Rec) : List Rec :=
  (cleaned.zip batch).map (fun p => remapRecord refFields idMap p.1 p.2)

/-- Interpreting a create response: per-record counting for composite
responses, all-or-nothing for a single response. -/
def handleCreateOutcome (objectType : String) (insertResult : CreateResult) : M Unit :=
  match insertResult with
  | .multi l => do
    addTransferred (l.filter (fun r => r.success)).length
    seqList (l.filter (fun r => !r.success)) (fun failure =>
      pushError (objectType ++ ": " ++ errOrUnknown failure.errors))
  | .single s =>
    if s.success then addTransferred 1
    else pushError (objectType ++ ": " ++ errOrUnknown s.errors)

/-- The relationship-resolution step of a batch: when enabled, build the
identifier map and remap the sanitized records, otherwise pass them
through unchanged. -/
def resolveBatch (env : Env) (opts : DataTransferOptions) (objectType : String)
    (md : List Field) (batch cleaned : List Rec) : M (List Rec) :=
  if opts.includeRelationships then do
    let idMap ← ensureParentRecordsExistNew env objectType md batch opts
    pure (remapBatch (referenceFieldsOf md) idMap cleaned batch)
  else pure cleaned

/-- One iteration of the batch loop shared by `transferObjectRecords`
and `transferByQuery`: sanitize, optionally resolve-and-remap
relationships, create in the target, interpret the outcome. -/
def processOneBatch (env : Env) (opts : DataTransferOptions) (objectType : String)
    (md : List Field) (batch : List Rec) : M Unit := do
  let cleanedBatch ← resolveBatch env opts objectType md batch (batch.map removeSystemFields)
  let insertResult ← tgtCreate env objectType cleanedBatch
  handleCreateOutcome objectType insertResult

/-! ### The orchestrator -/

def effectiveBatchSize (opts : DataTransferOptions) : Nat :=
  if opts.batchSize = 0 then 200 else opts.batchSize

def limitClauseFor (opts : DataTransferOptions) (objectType : String) : String :=
  match opts.recordLimits with
  | none => ""
  | some limits =>
    match lookupNat limits objectType with
    | none => ""
    | some n => if n = 0 then "" else " LIMIT " ++ toString n

def transferObjectRecords (env : Env) (opts : DataTransferOptions)
    (objectType : String) : M Unit :=
  attempt (do
    let md ← srcDescribe env objectType
    let query := buildExtractionQuery objectType md opts.includeRelationships
      (limitClauseFor opts objectType)
    let records ← srcQuery env query
    if records.length = 0 then pure ()
    else
      seqList (chunks (effectiveBatchSize opts) records)
        (processOneBatch env opts objectType md))
    (fun e => pushError ("Error transferring " ++ objectType ++ ": " ++
      stringifyErrors (.estr e)))

def transferByQuery (env : Env) (soql : String) (opts : DataTransferOptions) : M Unit :=
  match parseFromObject soql with
  | none => throwM "Unable to determine object type from SOQL query"
  | some objectType =>
    attempt (do
      let records ← srcQuery env soql
      if records.length = 0 then pure ()
      else do
        let md ← srcDescribe env objectType
        seqList (chunks (effectiveBatchSize opts) records)
          (processOneBatch env opts objectType md))
      (fun e => pushError ("Error transferring by query for " ++ objectType ++ ": " ++
        stringifyErrors (.estr e)))

/-- `if (!options.transferMode) options.transferMode = "insert"`. -/
def normalizeOptions (opts : DataTransferOptions) : DataTransferOptions :=
  match opts.transferMode with
  | none => {opts with transferMode := some .insert}
  | some _ => opts

def transferObjectTypesPath (env : Env) (opts : DataTransferOptions) : M TransferResult :=
  match opts.objectTypes with
  | none => throwM "No object types provided for transfer"
  | some ts => do
    seqList ts (transferObjectRecords env opts)
    finishSuccess

/-- `transferData`, past the connection-initialization guard (the claims
under study all assume initialized connections). -/
def transferData (env : Env) (options : DataTransferOptions) : M TransferResult :=
  let opts := normalizeOptions options
  attempt
    (match opts.customQuery with
     | some q =>
       if strTrim q ≠ "" then do
         transferByQuery env q opts
         finishSuccess
       else transferObjectTypesPath env opts
     | none => transferObjectTypesPath env opts)
    (fun e => do
      pushError ("Transfer failed: " ++ e)
      getResult)

def initialResult : TransferResult :=
  {success := false, recordsTransferred := 0, errors := []}

def initSt : St := {result := initialResult, calls := [], idMapping := []}

/-- A whole run: the returned `TransferResult` and the remote calls
issued.  The error branch is unreachable (proved below) but kept total. -/
def runTransfer (env : Env) (opts : DataTransferOptions) : TransferResult × List Call :=
  match transferData env opts initSt with
  | (Except.ok r, st) => (r, st.calls)
  | (Except.error _, st) => (st.result, st.calls)

/-- Number of create calls in a call log. -/
def countCreates (calls : List Call) : Nat :=
  calls.countP (fun c => match c with | .tgtCreate _ _ => true | _ => false)

/-! ## Generic lemmas about the computation shape -/

theorem bind_app {α β : Type} (x : M α) (f : α → M β) (st : St) :
    (x >>= f) st = match x st with
      | (Except.ok a, st1) => f a st1
      | (Except.error e, st1) => (Except.error e, st1) := rfl

theorem pure_app {α : Type} (a : α) (st : St) : (pure a : M α) st = (.ok a, st) := rfl

/-- `Mono P m`: every run of `m` relates its start state to its end
state (on both success and failure) by `P`. -/
def Mono (P : St → St → Prop) {α : Type} (m : M α) : Prop :=
  ∀ st, P st (m st).2

section Mono

variable {P : St → St → Prop} {α β : Type}

theorem mono_pure (hrefl : ∀ s, P s s) (a : α) : Mono P (pure a : M α) :=
  fun st => hrefl st

theorem mono_throw (hrefl : ∀ s, P s s) (e : String) : Mono P (throwM e : M α) :=
  fun st => hrefl st

theorem mono_bind (htrans : ∀ a b c, P a b → P b c → P a c)
    {x : M α} {f : α → M β} (hx : Mono P x) (hf : ∀ a, Mono P (f a)) :
    Mono P (x >>= f) := by
  intro st
  have h1 := hx st
  rw [bind_app]
  rcases hxe : x st with ⟨res, st1⟩
  rw [hxe] at h1
  cases res with
  | ok a => exact htrans _ _ _ h1 (hf a st1)
  | error e => exact h1

theorem mono_attempt (htrans : ∀ a b c, P a b → P b c → P a c)
    {x : M α} {h : String → M α} (hx : Mono P x) (hh : ∀ e, Mono P (h e)) :
    Mono P (attempt x h) := by
  intro st
  have h1 := hx st
  unfold attempt
  rcases hxe : x st with ⟨res, st1⟩
  rw [hxe] at h1
  cases res with
  | ok a => exact h1
  | error e => exact htrans _ _ _ h1 (hh e st1)

theorem mono_seqList (hrefl : ∀ s, P s s) (htrans : ∀ a b c, P a b → P b c → P a c)
    {f : α → M Unit} (hf : ∀ a, Mono P (f a)) :
    ∀ l : List α, Mono P (seqList l f) := by
  intro l
  induction l with
  | nil => exact mono_pure hrefl _
  | cons x xs ih =>
    exact mono_bind htrans (hf x) (fun _ => ih)

theorem mono_foldListM (hrefl : ∀ s, P s s) (htrans : ∀ a b c, P a b → P b c → P a c)
    {f : β → α → M β} (hf : ∀ b a, Mono P (f b a)) :
    ∀ (l : List α) (b : β), Mono P (foldListM l b f) := by
  intro l
  induction l with
  | nil => exact fun b => mono_pure hrefl b
  | cons x xs ih =>
    intro b
    exact mono_bind htrans (hf b x) (fun b1 => ih b1)

end Mono

/-- The evolution relation most of the service respects: the call log
only grows and the `success` flag is untouched (only `finishSuccess`
sets it). -/
def StEvolves (s t : St) : Prop :=
  t.result.success = s.result.success ∧ ∃ l, t.calls = s.calls ++ l

theorem stEvolves_refl : ∀ s, StEvolves s s :=
  fun s => ⟨rfl, [], (List.append_nil s.calls).symm⟩

theorem stEvolves_trans : ∀ a b c, StEvolves a b → StEvolves b c → StEvolves a c := by
  rintro a b c ⟨h1, l1, hl1⟩ ⟨h2, l2, hl2⟩
  exact ⟨h2.trans h1, l1 ++ l2, by rw [hl2, hl1, List.append_assoc]⟩

/-- Abbreviation for the property traversals below. -/
abbrev Tame {α : Type} (m : M α) : Prop := Mono StEvolves m

theorem tame_pure {α : Type} (a : α) : Tame (pure a : M α) := mono_pure stEvolves_refl a

theorem tame_throw {α : Type} (e : String) : Tame (throwM e : M α) := mono_throw stEvolves_refl e

theorem tame_bind {α β : Type} {x : M α} {f : α → M β}
    (hx : Tame x) (hf : ∀ a, Tame (f a)) : Tame (x >>= f) :=
  mono_bind stEvolves_trans hx hf

theorem tame_attempt {α : Type} {x : M α} {h : String → M α}
    (hx : Tame x) (hh : ∀ e, Tame (h e)) : Tame (attempt x h) :=
  mono_attempt stEvolves_trans hx hh

theorem tame_seqList {α : Type} {f : α → M Unit} (hf : ∀ a, Tame (f a))
    (l : List α) : Tame (seqList l f) :=
  mono_seqList stEvolves_refl stEvolves_trans hf l

theorem tame_foldListM {α β : Type} {f : β → α → M β} (hf : ∀ b a, Tame (f b a))
    (l : List α) (b : β) : Tame (foldListM l b f) :=
  mono_foldListM stEvolves_refl stEvolves_trans hf l b

theorem tame_logCall (c : Call) : Tame (logCall c) :=
  fun _ => ⟨rfl, [c], rfl⟩

theorem tame_pushError (msg : String) : Tame (pushError msg) :=
  fun st => ⟨rfl, [], (List.append_nil st.calls).symm⟩

theorem tame_addTransferred (n : Nat) : Tame (addTransferred n) :=
  fun st => ⟨rfl, [], (List.append_nil st.calls).symm⟩

theorem tame_getResult : Tame getResult :=
  fun st => ⟨rfl, [], (List.append_nil st.calls).symm⟩

theorem tame_resetIdMapping : Tame resetIdMapping :=
  fun st => ⟨rfl, [], (List.append_nil st.calls).symm⟩

theorem tame_putIdEntry (k : String) (v : Val) : Tame (putIdEntry k v) :=
  fun st => ⟨rfl, [], (List.append_nil st.calls).symm⟩

theorem tame_getIdMapping : Tame getIdMapping :=
  fun st => ⟨rfl, [], (List.append_nil st.calls).symm⟩

theorem tame_srcDescribe (env : Env) (t : String) : Tame (srcDescribe env t) := by
  unfold srcDescribe
  refine tame_bind (tame_logCall _) (fun _ => ?_)
  cases env.describeRes t with
  | ok md => exact tame_pure md
  | error e => exact tame_throw e

theorem tame_srcQuery (env : Env) (q : String) : Tame (srcQuery env q) := by
  unfold srcQuery
  refine tame_bind (tame_logCall _) (fun _ => ?_)
  cases env.queryRes q with
  | ok rs => exact tame_pure rs
  | error e => exact tame_throw e

theorem tame_tgtQuery (env : Env) (q : String) : Tame (tgtQuery env q) := by
  unfold tgtQuery
  refine tame_bind (tame_logCall _) (fun _ => ?_)
  cases env.tgtQueryRes q with
  | ok rs => exact tame_pure rs
  | error e => exact tame_throw e

theorem tame_tgtCreate (env : Env) (t : String) (rs : List Rec) :
    Tame (tgtCreate env t rs) := by
  unfold tgtCreate
  refine tame_bind (tame_logCall _) (fun _ => ?_)
  match rs with
  | [r] =>
    dsimp only
    cases env.createSingle t r with
    | ok s => exact tame_pure _
    | error e => exact tame_throw e
  | [] =>
    dsimp only
    cases env.createMulti t [] with
    | ok l => exact tame_pure _
    | error e => exact tame_throw e
  | r1 :: r2 :: rest =>
    dsimp only
    cases env.createMulti t (r1 :: r2 :: rest) with
    | ok l => exact tame_pure _
    | error e => exact tame_throw e

theorem tame_fetchParentChunks (env : Env) (mkSoql : List String → String)
    (ids : List String) : Tame (fetchParentChunks env mkSoql ids) := by
  unfold fetchParentChunks
  exact tame_foldListM (fun acc chunk =>
    tame_bind (tame_srcQuery env (mkSoql chunk)) (fun rs => tame_pure _)) _ _

theorem tame_recordParentInsertResults (parentObject : String)
    (parentRecords : List Rec) (l : List SaveResult) :
    Tame (recordParentInsertResults parentObject parentRecords l) := by
  unfold recordParentInsertResults
  refine tame_seqList (fun i => ?_) _
  cases l[i]? with
  | none => exact tame_pure _
  | some inserted =>
    by_cases hs : (inserted.success && idTruthy inserted.id) = true
    · simp only [hs, if_true]
      cases parentRecords[i]? with
      | none => exact tame_throw _
      | some original => exact tame_putIdEntry _ _
    · simp only [hs, if_false, Bool.false_eq_true]
      exact tame_pushError _

theorem tame_handleInsertModeParents (env : Env) (parentObject : String)
    (parentIds : List String) : Tame (handleInsertModeParents env parentObject parentIds) := by
  unfold handleInsertModeParents
  refine tame_attempt ?_ (fun e => tame_pushError _)
  refine tame_bind (tame_srcDescribe env parentObject) (fun parentDescribe => ?_)
  by_cases h0 : ((parentDescribe.filter (fun f =>
      f.createable && !f.autoNumber && f.name ≠ "Id" && isInsertableField f)).map Field.name).length = 0
  · simp only [h0, if_true]
    exact tame_pure _
  · simp only [h0, if_false]
    refine tame_bind (tame_fetchParentChunks env _ parentIds) (fun parentRecords => ?_)
    by_cases h1 : parentRecords.length = 0
    · simp only [h1, if_true]
      exact tame_pure _
    · simp only [h1, if_false]
      refine tame_bind (tame_tgtCreate env parentObject _) (fun insertResult => ?_)
      cases insertResult with
      | multi l => exact tame_recordParentInsertResults _ _ _
      | single s => exact tame_pure _

theorem tame_handleUpsertModeParents (env : Env) (parentObject : String)
    (parentIds : List String) (opts : DataTransferOptions) :
    Tame (handleUpsertModeParents env parentObject parentIds opts) := by
  unfold handleUpsertModeParents
  cases opts.externalIdMapping with
  | none => exact tame_pure _
  | some mapping =>
    dsimp only
    cases lookupStr mapping parentObject with
    | none => exact tame_pushError _
    | some ext =>
      dsimp only
      by_cases he : ext = ""
      · simp only [he, if_true]
        exact tame_pushError _
      · simp only [he, if_false]
        refine tame_attempt ?_ (fun e => tame_pushError _)
        refine tame_bind (tame_fetchParentChunks env _ parentIds) (fun parentRecords => ?_)
        refine tame_seqList (fun p => ?_) parentRecords
        cases getKey p ext with
        | none => exact tame_pure _
        | some v =>
          dsimp only
          by_cases hv : truthy v = true
          · simp only [hv, if_true]
            refine tame_attempt ?_ (fun e => tame_pushError _)
            refine tame_bind (tame_tgtQuery env _) (fun targetRecords => ?_)
            cases targetRecords with
            | nil => exact tame_pushError _
            | cons r0 rest => exact tame_putIdEntry _ _
          · simp only [hv, if_false, Bool.false_eq_true]
            exact tame_pure _

theorem tame_ensureParentRecordsExistNew (env : Env) (objectType : String)
    (md : List Field) (batch : List Rec) (opts : DataTransferOptions) :
    Tame (ensureParentRecordsExistNew env objectType md batch opts) := by
  unfold ensureParentRecordsExistNew
  by_cases h0 : (referenceFieldsOf md).isEmpty = true
  · simp only [h0, if_true]
    exact tame_pure _
  · simp only [h0, if_false]
    refine tame_bind tame_resetIdMapping (fun _ => ?_)
    refine tame_bind (tame_seqList (fun parentObject => ?_) _) (fun _ => tame_getIdMapping)
    by_cases h1 : (dedupFirst (((collectParentPairs (referenceFieldsOf md) batch).filter
        (fun pr => pr.1 == parentObject)).map Prod.snd)).isEmpty = true
    · simp only [h1, if_true]
      exact tame_pure _
    · simp only [h1, if_false]
      cases opts.transferMode with
      | none => exact tame_pure _
      | some m =>
        cases m with
        | insert => exact tame_handleInsertModeParents env _ _
        | upsert => exact tame_handleUpsertModeParents env _ _ _

theorem tame_handleCreateOutcome (objectType : String) (res : CreateResult) :
    Tame (handleCreateOutcome objectType res) := by
  unfold handleCreateOutcome
  cases res with
  | multi l =>
    exact tame_bind (tame_addTransferred _)
      (fun _ => tame_seqList (fun failure => tame_pushError _) _)
  | single s =>
    by_cases hs : s.success = true
    · simp only [hs, if_true]
      exact tame_addTransferred _
    · simp only [hs, if_false, Bool.false_eq_true]
      exact tame_pushError _

theorem tame_resolveBatch (env : Env) (opts : DataTransferOptions)
    (objectType : String) (md : List Field) (batch cleaned : List Rec) :
    Tame (resolveBatch env opts objectType md batch cleaned) := by
  unfold resolveBatch
  by_cases hrel : opts.includeRelationships = true
  · simp only [hrel, if_true]
    exact tame_bind (tame_ensureParentRecordsExistNew env objectType md batch opts)
      (fun idMap => tame_pure _)
  · simp only [hrel, if_false, Bool.false_eq_true]
    exact tame_pure _

theorem tame_processOneBatch (env : Env) (opts : DataTransferOptions)
    (objectType : String) (md : List Field) (batch : List Rec) :
    Tame (processOneBatch env opts objectType md batch) := by
  unfold processOneBatch
  exact tame_bind (tame_resolveBatch env opts objectType md batch _)
    (fun cleaned => tame_bind (tame_tgtCreate env objectType cleaned)
      (fun res => tame_handleCreateOutcome objectType res))

theorem tame_transferObjectRecords (env : Env) (opts : DataTransferOptions)
    (objectType : String) : Tame (transferObjectRecords env opts objectType) := by
  unfold transferObjectRecords
  refine tame_attempt ?_ (fun e => tame_pushError _)
  refine tame_bind (tame_srcDescribe env objectType) (fun md => ?_)
  refine tame_bind (tame_srcQuery env _) (fun records => ?_)
  by_cases h0 : records.length = 0
  · simp only [h0, if_true]
    exact tame_pure _
  · simp only [h0, if_false]
    exact tame_seqList (fun batch => tame_processOneBatch env opts objectType md batch) _

theorem tame_transferByQuery (env : Env) (soql : String) (opts : DataTransferOptions) :
    Tame (transferByQuery env soql opts) := by
  unfold transferByQuery
  cases parseFromObject soql with
  | none => exact tame_throw _
  | some objectType =>
    refine tame_attempt ?_ (fun e => tame_pushError _)
    refine tame_bind (tame_srcQuery env soql) (fun records => ?_)
    by_cases h0 : records.length = 0
    · simp only [h0, if_true]
      exact tame_pure _
    · simp only [h0, if_false]
      refine tame_bind (tame_srcDescribe env objectType) (fun md => ?_)
      exact tame_seqList (fun batch => tame_processOneBatch env opts objectType md batch) _

/-! ## Total-catch lemmas: computations that always return `ok` -/

def AlwaysOk {α : Type} (m : M α) : Prop :=
  ∀ st, ∃ a st1, m st = (Except.ok a, st1)

theorem alwaysOk_pure {α : Type} (a : α) : AlwaysOk (pure a : M α) :=
  fun st => ⟨a, st, rfl⟩

theorem alwaysOk_bind {α β : Type} {x : M α} {f : α → M β}
    (hx : AlwaysOk x) (hf : ∀ a, AlwaysOk (f a)) : AlwaysOk (x >>= f) := by
  intro st
  obtain ⟨a, st1, hx1⟩ := hx st
  obtain ⟨b, st2, hf1⟩ := hf a st1
  refine ⟨b, st2, ?_⟩
  rw [bind_app, hx1]
  exact hf1

/-- A `try/catch` whose handler always succeeds always succeeds, no
matter what the body does. -/
theorem alwaysOk_attempt {α : Type} {x : M α} {h : String → M α}
    (hh : ∀ e, AlwaysOk (h e)) : AlwaysOk (attempt x h) := by
  intro st
  unfold attempt
  rcases hxe : x st with ⟨res, st1⟩
  cases res with
  | ok a => exact ⟨a, st1, rfl⟩
  | error e =>
    obtain ⟨a, st2, hh1⟩ := hh e st1
    exact ⟨a, st2, hh1⟩

theorem alwaysOk_pushError (msg : String) : AlwaysOk (pushError msg) :=
  fun st => ⟨(), _, rfl⟩

theorem alwaysOk_getResult : AlwaysOk getResult :=
  fun st => ⟨st.result, st, rfl⟩

theorem alwaysOk_transferObjectRecords (env : Env) (opts : DataTransferOptions)
    (objectType : String) : AlwaysOk (transferObjectRecords env opts objectType) := by
  unfold transferObjectRecords
  exact alwaysOk_attempt (fun e => alwaysOk_pushError _)

theorem alwaysOk_seqList {α : Type} {f : α → M Unit} (hf : ∀ a, AlwaysOk (f a)) :
    ∀ l : List α, AlwaysOk (seqList l f) := by
  intro l
  induction l with
  | nil => exact alwaysOk_pure _
  | cons x xs ih => exact alwaysOk_bind (hf x) (fun _ => ih)

theorem alwaysOk_transferData (env : Env) (opts : DataTransferOptions) :
    AlwaysOk (transferData env opts) := by
  unfold transferData
  exact alwaysOk_attempt (fun e => alwaysOk_bind (alwaysOk_pushError _)
    (fun _ => alwaysOk_getResult))

/-! ## Call-membership lemmas -/

/-- From `StEvolves`, a call present before a tame computation is still
present after it. -/
theorem mem_calls_of_tame {α : Type} {m : M α} (hm : Tame m) {st : St} {c : Call}
    (hc : c ∈ st.calls) : c ∈ (m st).2.calls := by
  obtain ⟨-, l, hl⟩ := hm st
  rw [hl]
  exact List.mem_append_left l hc

theorem mem_calls_bind {α β : Type} {x : M α} {f : α → M β} {c : Call}
    (hx : ∀ st, c ∈ (x st).2.calls) (hf : ∀ a, Tame (f a)) :
    ∀ st, c ∈ ((x >>= f) st).2.calls := by
  intro st
  rw [bind_app]
  rcases hxe : x st with ⟨res, st1⟩
  have h1 : c ∈ st1.calls := by have := hx st; rw [hxe] at this; exact this
  cases res with
  | ok a => exact mem_calls_of_tame (hf a) h1
  | error e => exact h1

theorem mem_calls_attempt {α : Type} {x : M α} {h : String → M α} {c : Call}
    (hx : ∀ st, c ∈ (x st).2.calls) (hh : ∀ e, Tame (h e)) :
    ∀ st, c ∈ ((attempt x h) st).2.calls := by
  intro st
  unfold attempt
  rcases hxe : x st with ⟨res, st1⟩
  have h1 : c ∈ st1.calls := by have := hx st; rw [hxe] at this; exact this
  cases res with
  | ok a => exact h1
  | error e => exact mem_calls_of_tame (hh e) h1

theorem mem_calls_logCall (c : Call) : ∀ st, c ∈ ((logCall c) st).2.calls := by
  intro st
  simp [logCall]

theorem mem_calls_srcDescribe (env : Env) (t : String) :
    ∀ st, Call.srcDescribe t ∈ ((srcDescribe env t) st).2.calls := by
  unfold srcDescribe
  refine mem_calls_bind (mem_calls_logCall _) (fun _ => ?_)
  cases env.describeRes t with
  | ok md => exact tame_pure md
  | error e => exact tame_throw e

theorem mem_calls_transferObjectRecords (env : Env) (opts : DataTransferOptions)
    (objectType : String) :
    ∀ st, Call.srcDescribe objectType ∈ ((transferObjectRecords env opts objectType) st).2.calls := by
  unfold transferObjectRecords
  refine mem_calls_attempt ?_ (fun e => tame_pushError _)
  refine mem_calls_bind (mem_calls_srcDescribe env objectType) (fun md => ?_)
  refine tame_bind (tame_srcQuery env _) (fun records => ?_)
  by_cases h0 : records.length = 0
  · simp only [h0, if_true]
    exact tame_pure _
  · simp only [h0, if_false]
    exact tame_seqList (fun batch => tame_processOneBatch env opts objectType md batch) _

/-- Once an entity type of the list is reached, its describe call is in
the log, and the rest of the loop only appends. -/
theorem mem_calls_seqList_transfer (env : Env) (opts : DataTransferOptions)
    {t : String} : ∀ ts : List String, t ∈ ts →
    ∀ st, Call.srcDescribe t ∈ ((seqList ts (transferObjectRecords env opts)) st).2.calls := by
  intro ts
  induction ts with
  | nil => intro h; cases h
  | cons x xs ih =>
    intro h st
    rcases List.mem_cons.mp h with h1 | h2
    · subst h1
      exact mem_calls_bind (mem_calls_transferObjectRecords env opts t)
        (fun _ => tame_seqList (fun a => tame_transferObjectRecords env opts a) xs) st
    · show Call.srcDescribe t ∈ (((transferObjectRecords env opts x) >>=
        (fun _ => seqList xs (transferObjectRecords env opts))) st).2.calls
      rw [bind_app]
      rcases hxe : transferObjectRecords env opts x st with ⟨res, st1⟩
      cases res with
      | ok a => exact ih h2 st1
      | error e =>
        obtain ⟨u, st2, hok⟩ := alwaysOk_transferObjectRecords env opts x st
        rw [hok] at hxe
        cases hxe

/-! ## Batching lemmas -/

theorem chunksGo_fuel_irrelevant {α : Type} (b : Nat) (hb : 1 ≤ b) :
    ∀ fuel1 fuel2 (l : List α), l.length ≤ fuel1 → l.length ≤ fuel2 →
    chunksGo b fuel1 l = chunksGo b fuel2 l := by
  intro fuel1
  induction fuel1 with
  | zero =>
    intro fuel2 l h1 h2
    have : l = [] := List.length_eq_zero.mp (Nat.le_zero.mp h1)
    subst this
    cases fuel2 <;> rfl
  | succ f ih =>
    intro fuel2 l h1 h2
    cases l with
    | nil => cases fuel2 <;> rfl
    | cons x xs =>
      cases fuel2 with
      | zero => exact absurd h2 (by simp)
      | succ f2 =>
        show (x :: xs).take b :: chunksGo b f ((x :: xs).drop b) =
          (x :: xs).take b :: chunksGo b f2 ((x :: xs).drop b)
        have hlen : ((x :: xs).drop b).length = (x :: xs).length - b := by simp
        have hlb : ((x :: xs).drop b).length ≤ f := by
          rw [hlen]
          simp only [List.length_cons] at h1 ⊢
          omega
        have hlb2 : ((x :: xs).drop b).length ≤ f2 := by
          rw [hlen]
          simp only [List.length_cons] at h2 ⊢
          omega
        rw [ih _ _ hlb hlb2]

theorem chunks_nil {α : Type} (b : Nat) : chunks b ([] : List α) = [] := by
  unfold chunks chunksGo
  rfl

theorem chunks_cons {α : Type} (b : Nat) (hb : 1 ≤ b) (l : List α) (hl : l ≠ []) :
    chunks b l = l.take b :: chunks b (l.drop b) := by
  unfold chunks
  cases l with
  | nil => exact absurd rfl hl
  | cons x xs =>
    show (x :: xs).take b :: chunksGo b xs.length ((x :: xs).drop b) = _
    congr 1
    have hlen : ((x :: xs).drop b).length = (x :: xs).length - b := by simp
    refine chunksGo_fuel_irrelevant b hb _ _ _ ?_ ?_
    · rw [hlen]; simp only [List.length_cons]; omega
    · exact Nat.le_refl _

/-- Division step of the ceiling count. -/
theorem ceil_div_step (b n : Nat) (hb : 1 ≤ b) (hn : 1 ≤ n) :
    (n + b - 1) / b = (n - b + b - 1) / b + 1 := by
  rcases Nat.lt_or_ge n (b + 1) with h | h
  · -- n ≤ b: both sides are 1
    have hnb : n ≤ b := by omega
    have hsub : n - b = 0 := by omega
    rw [hsub]
    have h1 : (n + b - 1) / b = 1 := by
      have hlow : 1 * b ≤ n + b - 1 := by omega
      have hhigh : n + b - 1 < (1 + 1) * b := by omega
      exact Nat.div_eq_of_lt_le hlow hhigh
    have h2 : (0 + b - 1) / b = 0 := Nat.div_eq_of_lt (by omega)
    rw [h1, h2]
  · -- b < n
    have e1 : n + b - 1 = (n - 1) + b := by omega
    have e2 : n - b + b - 1 = n - 1 - b + b := by omega
    have e3 : n - 1 - b + b = n - 1 := by omega
    rw [e1, e2, e3, Nat.add_div_right _ (by omega)]

theorem chunks_length {α : Type} (b : Nat) (hb : 1 ≤ b) :
    ∀ (n : Nat) (l : List α), l.length ≤ n →
    (chunks b l).length = (l.length + b - 1) / b := by
  intro n
  induction n with
  | zero =>
    intro l h
    have hnil : l = [] := List.length_eq_zero.mp (Nat.le_zero.mp h)
    subst hnil
    rw [chunks_nil]
    have h0 : (b - 1) / b = 0 := Nat.div_eq_of_lt (by omega)
    simp [h0]
  | succ n ih =>
    intro l h
    cases hl : l with
    | nil =>
      rw [chunks_nil]
      have h0 : (b - 1) / b = 0 := Nat.div_eq_of_lt (by omega)
      simp [h0]
    | cons x xs =>
      subst hl
      have hdl : ((x :: xs).drop b).length = (x :: xs).length - b := by simp
      have hrec := ih ((x :: xs).drop b)
        (by simp only [List.length_drop, List.length_cons] at h ⊢; omega)
      rw [chunks_cons b hb _ (by simp), List.length_cons, hrec, hdl]
      have hstep := ceil_div_step b (x :: xs).length hb (by simp)
      omega

theorem chunks_sum_length {α : Type} (b : Nat) (hb : 1 ≤ b) :
    ∀ (n : Nat) (l : List α), l.length ≤ n →
    ((chunks b l).map List.length).sum = l.length := by
  intro n
  induction n with
  | zero =>
    intro l h
    have hnil : l = [] := List.length_eq_zero.mp (Nat.le_zero.mp h)
    subst hnil
    rw [chunks_nil]
    rfl
  | succ n ih =>
    intro l h
    cases hl : l with
    | nil => rw [chunks_nil]; rfl
    | cons x xs =>
      subst hl
      have hdl : ((x :: xs).drop b).length = (x :: xs).length - b := by simp
      have hrec := ih ((x :: xs).drop b)
        (by simp only [List.length_drop, List.length_cons] at h ⊢; omega)
      rw [chunks_cons b hb _ (by simp)]
      simp only [List.map_cons, List.sum_cons, hrec, hdl, List.length_take]
      simp only [List.length_cons]
      omega

/-! ## Helper lemmas on deduplication and joining -/

theorem mem_dedupFirstAux {a : String} :
    ∀ (l seen : List String), a ∈ l → ¬ a ∈ seen → a ∈ dedupFirstAux seen l := by
  intro l
  induction l with
  | nil => intro seen h; cases h
  | cons x xs ih =>
    intro seen h hs
    unfold dedupFirstAux
    by_cases hx : seen.contains x = true
    · simp only [hx, if_true]
      rcases List.mem_cons.mp h with h1 | h2
      · subst h1
        exact absurd (List.mem_of_elem_eq_true hx) hs
      · exact ih seen h2 hs
    · simp only [hx, if_false, Bool.false_eq_true]
      rcases List.mem_cons.mp h with h1 | h2
      · subst h1
        exact List.mem_cons_self _ _
      · by_cases hax : a = x
        · subst hax
          exact List.mem_cons_self _ _
        · refine List.mem_cons_of_mem _ (ih (x :: seen) h2 ?_)
          intro hmem
          rcases List.mem_cons.mp hmem with h3 | h4
          · exact hax h3
          · exact hs h4

theorem mem_dedupFirst {a : String} {l : List String} (h : a ∈ l) : a ∈ dedupFirst l :=
  mem_dedupFirstAux l [] h (by simp)

theorem dedupFirstAux_all_seen :
    ∀ (l seen : List String), (∀ x ∈ l, x ∈ seen) → dedupFirstAux seen l = [] := by
  intro l
  induction l with
  | nil => intro seen _; rfl
  | cons x xs ih =>
    intro seen h
    unfold dedupFirstAux
    have hx : seen.contains x = true :=
      List.elem_eq_true_of_mem (h x (List.mem_cons_self _ _))
    simp only [hx, if_true]
    exact ih seen (fun y hy => h y (List.mem_cons_of_mem _ hy))

/-- Deduplicating a non-empty constant list gives the singleton. -/
theorem dedupFirst_all_eq {m : String} :
    ∀ l : List String, l ≠ [] → (∀ x ∈ l, x = m) → dedupFirst l = [m] := by
  intro l hne hall
  cases l with
  | nil => exact absurd rfl hne
  | cons x xs =>
    have hx : x = m := hall x (List.mem_cons_self _ _)
    subst hx
    show dedupFirstAux [] (x :: xs) = [x]
    unfold dedupFirstAux
    simp only [List.contains_nil, if_false, Bool.false_eq_true]
    congr 1
    refine dedupFirstAux_all_seen xs [x] (fun y hy => ?_)
    have : y = x := hall y (List.mem_cons_of_mem _ hy)
    simp [this]

theorem data_append (a b : String) : (a ++ b).data = a.data ++ b.data := by
  cases a
  cases b
  rfl

/-- Every element of the list occurs inside its "; "-join. -/
theorem joinSemi_mem_sub {m : String} :
    ∀ l : List String, m ∈ l → m.data <:+: (joinSemi l).data := by
  intro l
  induction l with
  | nil => intro h; cases h
  | cons x xs ih =>
    intro h
    cases xs with
    | nil =>
      rcases List.mem_cons.mp h with h1 | h2
      · subst h1
        exact ⟨[], [], by simp [joinSemi]⟩
      · cases h2
    | cons y ys =>
      show m.data <:+: (x ++ "; " ++ joinSemi (y :: ys)).data
      rcases List.mem_cons.mp h with h1 | h2
      · subst h1
        refine ⟨[], ("; " ++ joinSemi (y :: ys)).data, ?_⟩
        simp [data_append, String.append_assoc]
      · obtain ⟨s, t, hst⟩ := ih h2
        refine ⟨(x ++ "; ").data ++ s, t, ?_⟩
        rw [data_append, data_append]
        rw [List.append_assoc, List.append_assoc]
        rw [← List.append_assoc s _ _, hst]
        simp

theorem stringifyEach_ofList (l : List ErrVal) :
    stringifyEach (ErrList.ofList l) = l.map stringifyErrors := by
  induction l with
  | nil => rfl
  | cons e es ih =>
    show stringifyErrors e :: stringifyEach (ErrList.ofList es) = _
    rw [ih, List.map_cons]

/-! ## Claim C7 -/

/-- Claim C7: sanitization removes every key of the fixed system-field
exclusion list and every key ending in the read-only "__pc" suffix, and
it never rejects a record (its output is a sub-record of its input,
obtained only by deleting keys). -/
theorem C7_sanitize_round_trip :
    ∀ r : Rec, (removeSystemFields r).Sublist r ∧
      ((removeSystemFields r).all (fun kv =>
        !(systemFields.contains kv.1) && !(strEndsWith kv.1 "__pc"))) = true := by
  intro r
  constructor
  · exact List.filter_sublist r
  · rw [List.all_eq_true]
    intro kv hkv
    have h := List.of_mem_filter hkv
    simp only [Bool.and_eq_true] at h
    simp only [Bool.and_eq_true]
    exact ⟨h.1.1, h.1.2⟩

/-! ## Claim C1 -/

/-- The standard Id field: neither createable nor updateable, yet
`isInsertableField` accepts it ("Id" is absent from that predicate's
exclusion list). -/
def idFieldEx : Field :=
  {name := "Id", ftype := "id", createable := false, updateable := false,
   calculated := false, autoNumber := false, relationshipName := none, referenceTo := []}

/-- Claim C1 (counterexample): the extraction query does not select
exactly the `isInsertableField`-true fields.  For a schema consisting of
the standard Id field, `isInsertableField` is true yet the built query
selects nothing at all. -/
theorem C1_counterexample :
    isInsertableField idFieldEx = true ∧
    extractionBaseFieldNames [idFieldEx] = [] ∧
    buildExtractionQuery "Account" [idFieldEx] false "" = "SELECT  FROM Account" := by
  refine ⟨by decide, by decide, by decide⟩

/-- Claim C1 (amended): for entity-type driven extraction the query
selects exactly the fields with `createable || updateable` true (not the
`isInsertableField` predicate), plus, when relationship inclusion is
requested, the relationship-name projections of reference fields with a
non-empty relationship name. -/
theorem C1_amended_query_fields (md : List Field) (f : Field)
    (hf : f ∈ md) (hnd : (md.map Field.name).Nodup) :
    (f.name ∈ extractionBaseFieldNames md ↔ (f.createable = true ∨ f.updateable = true)) ∧
    (∀ r : String, r ∈ extractionRelNames md ↔
      ∃ g, g ∈ md ∧ g.ftype = "reference" ∧ g.relationshipName = some r ∧ r ≠ "") := by
  constructor
  · constructor
    · intro hmem
      obtain ⟨g, hgf, hgn⟩ := List.mem_map.mp hmem
      obtain ⟨hgmd, hgp⟩ := List.mem_filter.mp hgf
      have hgeq : g = f := List.inj_on_of_nodup_map hnd hgmd hf hgn
      subst hgeq
      simpa using hgp
    · intro h
      refine List.mem_map_of_mem Field.name (List.mem_filter.mpr ⟨hf, ?_⟩)
      simpa using h
  · intro r
    constructor
    · intro hmem
      obtain ⟨g, hgf, hgn⟩ := List.mem_map.mp hmem
      obtain ⟨hgmd, hgp⟩ := List.mem_filter.mp hgf
      rw [Bool.and_eq_true] at hgp
      obtain ⟨hgt, hgrel⟩ := hgp
      refine ⟨g, hgmd, by simpa using hgt, ?_, ?_⟩
      · cases hrel : g.relationshipName with
        | none => rw [hrel] at hgrel; cases hgrel
        | some s =>
          rw [hrel] at hgn
          simp only [Option.getD_some] at hgn
          rw [hgn]
      · cases hrel : g.relationshipName with
        | none => rw [hrel] at hgrel; cases hgrel
        | some s =>
          rw [hrel] at hgrel hgn
          simp only [Option.getD_some] at hgn
          have : s ≠ "" := by simpa [relTruthy] using hgrel
          rw [← hgn]
          exact this
    · rintro ⟨g, hgmd, hgt, hgrel, hrne⟩
      have : r = g.relationshipName.getD "" := by rw [hgrel]; rfl
      rw [this]
      refine List.mem_map_of_mem _ (List.mem_filter.mpr ⟨hgmd, ?_⟩)
      rw [Bool.and_eq_true]
      constructor
      · simpa using hgt
      · rw [hgrel]
        simpa [relTruthy] using hrne

def C1nameF : Field :=
  {name := "Name", ftype := "string", createable := true, updateable := true,
   calculated := false, autoNumber := false, relationshipName := none, referenceTo := []}

def C1refF : Field :=
  {name := "ParentId", ftype := "reference", createable := true, updateable := true,
   calculated := false, autoNumber := false, relationshipName := some "Parent",
   referenceTo := ["Account"]}

theorem C1_amended_witness :
    "Name" ∈ extractionBaseFieldNames [C1nameF, C1refF, idFieldEx] ∧
    "Parent" ∈ extractionRelNames [C1nameF, C1refF, idFieldEx] := by
  constructor
  · exact (C1_amended_query_fields [C1nameF, C1refF, idFieldEx] C1nameF
      (by decide) (by decide)).1.mpr (Or.inl rfl)
  · exact ((C1_amended_query_fields [C1nameF, C1refF, idFieldEx] C1nameF
      (by decide) (by decide)).2 "Parent").mpr ⟨C1refF, by decide, rfl, rfl, by decide⟩

/-! ## Claim C8 -/

/-- Claim C8 (counterexample): a singleton array of one failure payload
is not rendered with an "(occurred 1 times)" suffix, contradicting the
claim read at N = 1. -/
theorem C8_counterexample :
    stringifyErrors (.earr (.cons (.estr "boom") .nil)) = "boom" ∧
    ("boom" : String) ≠ "boom (occurred 1 times)" := by
  refine ⟨by decide, by decide⟩

/-- The array case of `stringifyErrors`, written out. -/
theorem stringifyErrors_earr (el : ErrList) :
    stringifyErrors (.earr el) =
      (if (dedupFirst ((stringifyEach el).filter (fun s => s ≠ ""))).length = 1 ∧
          1 < ((stringifyEach el).filter (fun s => s ≠ "")).length then
        (dedupFirst ((stringifyEach el).filter (fun s => s ≠ ""))).headD "" ++
          " (occurred " ++
          toString ((stringifyEach el).filter (fun s => s ≠ "")).length ++ " times)"
      else joinSemi (dedupFirst ((stringifyEach el).filter (fun s => s ≠ "")))) := rfl

/-- Claim C8 (amended): an array of at least two payloads that all
stringify to the same non-empty message collapses to that message with
an "(occurred N times)" suffix, N being the array length; and for any
array, every element's non-empty stringification occurs inside the
aggregate output (distinct messages are never dropped). -/
theorem C8_amended_aggregation (l : List ErrVal) (m : String) (hm : m ≠ "")
    (hall : ∀ e ∈ l, stringifyErrors e = m) (hlen : 2 ≤ l.length) :
    stringifyErrors (.earr (ErrList.ofList l)) =
      m ++ " (occurred " ++ toString l.length ++ " times)" ∧
    (∀ (l2 : List ErrVal) (e : ErrVal), e ∈ l2 → stringifyErrors e ≠ "" →
      (stringifyErrors e).data <:+: (stringifyErrors (.earr (ErrList.ofList l2))).data) := by
  constructor
  · have hconst : l.map stringifyErrors = List.replicate l.length m := by
      rw [List.map_congr_left hall]
      exact List.map_const' l m
    have herr : (stringifyEach (ErrList.ofList l)).filter (fun s => s ≠ "") =
        List.replicate l.length m := by
      rw [stringifyEach_ofList, hconst]
      refine List.filter_eq_self.mpr (fun a ha => ?_)
      have ham : a = m := List.eq_of_mem_replicate ha
      subst ham
      simpa using hm
    have hded : dedupFirst (List.replicate l.length m) = [m] := by
      refine dedupFirst_all_eq _ ?_ (fun x hx => List.eq_of_mem_replicate hx)
      intro hcon
      have hlen0 := congrArg List.length hcon
      simp only [List.length_replicate, List.length_nil] at hlen0
      omega
    rw [stringifyErrors_earr, herr, hded]
    have hcond : ([m] : List String).length = 1 ∧
        1 < (List.replicate l.length m).length := by
      refine ⟨by simp, ?_⟩
      rw [List.length_replicate]
      omega
    rw [if_pos hcond]
    simp [List.length_replicate]
  · intro l2 e he hne
    rw [stringifyErrors_earr]
    have hmem : stringifyErrors e ∈
        (stringifyEach (ErrList.ofList l2)).filter (fun s => s ≠ "") := by
      rw [stringifyEach_ofList]
      refine List.mem_filter.mpr ⟨List.mem_map_of_mem stringifyErrors he, by simpa using hne⟩
    have hdmem : stringifyErrors e ∈
        dedupFirst ((stringifyEach (ErrList.ofList l2)).filter (fun s => s ≠ "")) :=
      mem_dedupFirst hmem
    by_cases hc : (dedupFirst ((stringifyEach (ErrList.ofList l2)).filter
        (fun s => s ≠ ""))).length = 1 ∧
        1 < ((stringifyEach (ErrList.ofList l2)).filter (fun s => s ≠ "")).length
    · rw [if_pos hc]
      obtain ⟨u, hu⟩ := List.length_eq_one.mp hc.1
      rw [hu] at hdmem
      have heu : stringifyErrors e = u := by simpa using hdmem
      rw [hu, heu]
      refine ⟨[], (" (occurred " ++ toString ((stringifyEach (ErrList.ofList l2)).filter
        (fun s => s ≠ "")).length ++ " times)").data, ?_⟩
      simp [data_append, List.append_assoc]
    · rw [if_neg hc]
      exact joinSemi_mem_sub _ hdmem

theorem C8_amended_witness :
    stringifyErrors (.earr (ErrList.ofList [.estr "E1 bad", .estr "E1 bad", .estr "E1 bad"])) =
      "E1 bad (occurred 3 times)" := by
  have h := (C8_amended_aggregation [.estr "E1 bad", .estr "E1 bad", .estr "E1 bad"]
    "E1 bad" (by decide) (by decide) (by decide)).1
  exact h.trans (by decide)

/-! ## Claim C9 -/

theorem normalizeOptions_customQuery (opts : DataTransferOptions) :
    (normalizeOptions opts).customQuery = opts.customQuery := by
  unfold normalizeOptions
  cases opts.transferMode <;> rfl

theorem normalizeOptions_objectTypes (opts : DataTransferOptions) :
    (normalizeOptions opts).objectTypes = opts.objectTypes := by
  unfold normalizeOptions
  cases opts.transferMode <;> rfl

/-- Claim C9: when the custom query yields no entity-type identifier
after FROM, the transfer fails before anything is attempted against
either system: the call log is empty (in particular no create call was
issued), `recordsTransferred` is 0, and the parse failure is recorded in
the returned result's error list. -/
theorem C9_query_parse_failure (env : Env) (opts : DataTransferOptions) (q : String)
    (hq : opts.customQuery = some q) (hne : strTrim q ≠ "")
    (hp : parseFromObject q = none) :
    runTransfer env opts =
      ({success := false, recordsTransferred := 0,
        errors := ["Transfer failed: Unable to determine object type from SOQL query"]}, []) := by
  unfold runTransfer transferData
  have h1 : (normalizeOptions opts).customQuery = some q := by
    rw [normalizeOptions_customQuery, hq]
  rw [h1]
  dsimp only
  rw [if_pos hne]
  unfold transferByQuery
  rw [hp]
  rfl

def C9env : Env :=
  {describeRes := fun _ => .error "unused",
   queryRes := fun _ => .error "unused",
   tgtQueryRes := fun _ => .error "unused",
   createSingle := fun _ _ => .error "unused",
   createMulti := fun _ _ => .error "unused"}

def C9opts : DataTransferOptions :=
  {objectTypes := none, includeRelationships := false, batchSize := 200,
   recordLimits := none, customQuery := some "SELECT Id", externalIdMapping := none,
   transferMode := none}

theorem C9_witness :
    runTransfer C9env C9opts =
      ({success := false, recordsTransferred := 0,
        errors := ["Transfer failed: Unable to determine object type from SOQL query"]}, []) :=
  C9_query_parse_failure C9env C9opts "SELECT Id" rfl (by decide) (by decide)

/-! ## Lookup lemmas for records -/

theorem getKey_map_set_ne (k k' : String) (v : Val) (hne : k' ≠ k) :
    ∀ r : Rec, getKey (r.map (fun kv => if kv.1 == k then (k, v) else kv)) k' = getKey r k' := by
  intro r
  induction r with
  | nil => rfl
  | cons kv rest ih =>
    unfold getKey at ih ⊢
    by_cases hk : (kv.1 == k) = true
    · simp only [List.map_cons, hk, if_true]
      have hk1 : kv.1 = k := by simpa using hk
      have h1 : ((k, v).1 == k') = false := by
        simp only [beq_eq_false_iff_ne, ne_eq]
        exact fun hc => hne (hc.symm)
      have h2 : (kv.1 == k') = false := by
        rw [hk1]
        simp only [beq_eq_false_iff_ne, ne_eq]
        exact fun hc => hne (hc.symm)
      rw [List.find?_cons, List.find?_cons, h1, h2]
      exact ih
    · simp only [List.map_cons, hk, if_false, Bool.false_eq_true]
      rw [List.find?_cons, List.find?_cons]
      by_cases hk2 : (kv.1 == k') = true
      · rw [hk2]
      · rw [Bool.eq_false_iff.mpr hk2]
        exact ih

theorem getKey_append (r1 r2 : Rec) (k : String) :
    getKey (r1 ++ r2) k = ((r1.find? (fun kv => kv.1 == k)).map (·.2)).orElse
      (fun _ => (r2.find? (fun kv => kv.1 == k)).map (·.2)) := by
  unfold getKey
  rw [List.find?_append]
  cases r1.find? (fun kv => kv.1 == k) <;> rfl

theorem getKey_setKey_ne (r : Rec) (k k' : String) (v : Val) (hne : k' ≠ k) :
    getKey (setKey r k v) k' = getKey r k' := by
  unfold setKey
  by_cases hex : (r.find? (fun kv => kv.1 == k)).isSome
  · simp only [hex, if_true]
    exact getKey_map_set_ne k k' v hne r
  · simp only [hex, if_false, Bool.false_eq_true]
    rw [getKey_append]
    have h1 : (([(k, v)] : Rec).find? (fun kv => kv.1 == k')).map (·.2) = none := by
      have : ((k, v).1 == k') = false := by
        simp only [beq_eq_false_iff_ne, ne_eq]
        exact fun hc => hne (hc.symm)
      simp [List.find?_cons, this]
    rw [h1]
    unfold getKey
    cases r.find? (fun kv => kv.1 == k') <;> rfl

theorem getKey_setKey_self (r : Rec) (k : String) (v : Val) :
    getKey (setKey r k v) k = some v := by
  unfold setKey
  by_cases hex : (r.find? (fun kv => kv.1 == k)).isSome
  · simp only [hex, if_true]
    induction r with
    | nil => simp at hex
    | cons kv rest ih =>
      by_cases hk : (kv.1 == k) = true
      · unfold getKey
        simp only [List.map_cons, hk, if_true]
        rw [List.find?_cons]
        simp
      · rw [List.find?_cons, Bool.eq_false_iff.mpr hk] at hex
        unfold getKey at ih ⊢
        simp only [List.map_cons, hk, if_false, Bool.false_eq_true]
        rw [List.find?_cons, Bool.eq_false_iff.mpr hk]
        exact ih hex
  · simp only [hex, if_false, Bool.false_eq_true]
    rw [getKey_append]
    have h0 : (r.find? (fun kv => kv.1 == k)).map (·.2) = none := by
      rw [Option.not_isSome_iff_eq_none.mp hex]
      rfl
    rw [h0]
    simp [getKey, List.find?_cons]

/-- If a reference value has no entry in the identifier map, one remap
step leaves that field exactly as it is in the accumulated record. -/
theorem remapStep_not_mapped (idMap : IdMap) (orig : Rec) (name : String) (v : Val)
    (hv : getKey orig name = some v) (hnl : idLookup idMap (asKey v) = none)
    (acc : Rec) (ref : Field) :
    getKey (remapStep idMap orig acc ref) name = getKey acc name := by
  unfold remapStep
  cases hw : getKey orig ref.name with
  | none => rfl
  | some w =>
    dsimp only
    by_cases htw : truthy w = true
    · simp only [htw, if_true]
      cases hlk : idLookup idMap (asKey w) with
      | none => rfl
      | some tv =>
        dsimp only
        by_cases htv : truthy tv = true
        · simp only [htv, if_true]
          by_cases hnm : ref.name = name
          · exfalso
            rw [hnm] at hw
            rw [hw] at hv
            have hwv : w = v := Option.some.inj hv
            rw [hwv] at hlk
            rw [hlk] at hnl
            cases hnl
          · exact getKey_setKey_ne acc ref.name name tv (fun hc => hnm hc.symm)
        · simp only [htv, if_false, Bool.false_eq_true]
    · simp only [htw, if_false, Bool.false_eq_true]

/-- If a reference value has no entry in the identifier map, the remap
loop leaves that field exactly as it is in the sanitized record. -/
theorem remapRecord_not_mapped (idMap : IdMap) (orig : Rec) (name : String) (v : Val)
    (hv : getKey orig name = some v) (hnl : idLookup idMap (asKey v) = none) :
    ∀ (refFields : List Field) (cleaned : Rec),
      getKey (remapRecord refFields idMap cleaned orig) name = getKey cleaned name := by
  intro refFields
  induction refFields with
  | nil => intro cleaned; rfl
  | cons ref rest ih =>
    intro cleaned
    show getKey (List.foldl (remapStep idMap orig) cleaned (ref :: rest)) name = _
    rw [List.foldl_cons]
    have h2 := ih (remapStep idMap orig cleaned ref)
    exact h2.trans (remapStep_not_mapped idMap orig name v hv hnl cleaned ref)

/-! ## Claim C2 -/

/-- Claim C2 (amended): when an `externalIdMapping` object is present
but has no entry for the parent type, upsert resolution appends exactly
the "No external ID field specified for ..." error, changes nothing
else (in particular the identifier map gains no entry for that parent
and no remote call is made), and a child reference whose source id is
absent from the identifier map keeps its sanitized source value in the
written payload.  (When no `externalIdMapping` is configured at all the
code instead returns silently without the error — see the
counterexample.) -/
theorem C2_missing_external_id (env : Env) (parent : String) (ids : List String)
    (opts : DataTransferOptions) (m : List (String × String))
    (hm : opts.externalIdMapping = some m) (hl : lookupStr m parent = none) :
    (∀ st, handleUpsertModeParents env parent ids opts st =
      (Except.ok (), {st with result := {st.result with
        errors := st.result.errors ++ [noExtIdMsg parent]}})) ∧
    (∀ (refFields : List Field) (idMap : IdMap) (cleaned orig : Rec)
       (name : String) (v : Val),
      getKey orig name = some v → idLookup idMap (asKey v) = none →
      getKey (remapRecord refFields idMap cleaned orig) name = getKey cleaned name) := by
  constructor
  · intro st
    unfold handleUpsertModeParents
    rw [hm]
    dsimp only
    rw [hl]
    rfl
  · intro refFields idMap cleaned orig name v hv hnl
    exact remapRecord_not_mapped idMap orig name v hv hnl refFields cleaned

def C2opts : DataTransferOptions :=
  {objectTypes := none, includeRelationships := true, batchSize := 200,
   recordLimits := none, customQuery := none,
   externalIdMapping := some [("Contact", "Ext__c")], transferMode := some .upsert}

def C2noMapOpts : DataTransferOptions :=
  {objectTypes := none, includeRelationships := true, batchSize := 200,
   recordLimits := none, customQuery := none, externalIdMapping := none,
   transferMode := some .upsert}

/-- Claim C2 (counterexample): with no `externalIdMapping` configured at
all, upsert resolution for a parent type returns silently: the state is
completely unchanged and in particular no "No external ID field
specified" error is appended, refuting the claim's "including when no
externalIdMapping is given at all". -/
theorem C2_counterexample :
    handleUpsertModeParents C9env "Account" ["001A"] C2noMapOpts initSt =
      (Except.ok (), initSt) ∧
    (handleUpsertModeParents C9env "Account" ["001A"] C2noMapOpts initSt).2.result.errors = [] :=
  ⟨rfl, rfl⟩

theorem C2_witness :
    handleUpsertModeParents C9env "Account" ["001A"] C2opts initSt =
      (Except.ok (), {initSt with result := {initialResult with
        errors := [noExtIdMsg "Account"]}}) ∧
    getKey (remapRecord [C1refF] [("003B", Val.vstr "T1")]
      [("ParentId", Val.vstr "001A")] [("ParentId", Val.vstr "001A")]) "ParentId" =
      some (Val.vstr "001A") := by
  have h := C2_missing_external_id C9env "Account" ["001A"] C2opts
    [("Contact", "Ext__c")] rfl (by decide)
  constructor
  · exact h.1 initSt
  · have h2 := h.2 [C1refF] [("003B", Val.vstr "T1")]
      [("ParentId", Val.vstr "001A")] [("ParentId", Val.vstr "001A")]
      "ParentId" (Val.vstr "001A") (by decide) (by decide)
    rw [h2]
    decide

/-! ## Claim C10 -/

theorem countCreates_append (a b : List Call) :
    countCreates (a ++ b) = countCreates a + countCreates b := by
  unfold countCreates
  rw [List.countP_append]

/-- The per-run relation of claim C10: the number of create calls in
the log is unchanged. -/
def KeepsCreates {α : Type} (m : M α) : Prop :=
  Mono (fun s t => countCreates t.calls = countCreates s.calls) m

theorem kc_refl : ∀ s : St, countCreates s.calls = countCreates s.calls := fun _ => rfl

theorem kc_trans : ∀ a b c : St, countCreates b.calls = countCreates a.calls →
    countCreates c.calls = countCreates b.calls →
    countCreates c.calls = countCreates a.calls :=
  fun _ _ _ h1 h2 => h2.trans h1

theorem kc_pure {α : Type} (a : α) : KeepsCreates (pure a : M α) := mono_pure kc_refl a

theorem kc_throw {α : Type} (e : String) : KeepsCreates (throwM e : M α) :=
  mono_throw kc_refl e

theorem kc_bind {α β : Type} {x : M α} {f : α → M β}
    (hx : KeepsCreates x) (hf : ∀ a, KeepsCreates (f a)) : KeepsCreates (x >>= f) :=
  mono_bind kc_trans hx hf

theorem kc_attempt {α : Type} {x : M α} {h : String → M α}
    (hx : KeepsCreates x) (hh : ∀ e, KeepsCreates (h e)) : KeepsCreates (attempt x h) :=
  mono_attempt kc_trans hx hh

theorem kc_seqList {α : Type} {f : α → M Unit} (hf : ∀ a, KeepsCreates (f a))
    (l : List α) : KeepsCreates (seqList l f) :=
  mono_seqList kc_refl kc_trans hf l

theorem kc_foldListM {α β : Type} {f : β → α → M β} (hf : ∀ b a, KeepsCreates (f b a))
    (l : List α) (b : β) : KeepsCreates (foldListM l b f) :=
  mono_foldListM kc_refl kc_trans hf l b

theorem kc_pushError (msg : String) : KeepsCreates (pushError msg) := fun _ => rfl

theorem kc_putIdEntry (k : String) (v : Val) : KeepsCreates (putIdEntry k v) := fun _ => rfl

theorem kc_resetIdMapping : KeepsCreates resetIdMapping := fun _ => rfl

theorem kc_getIdMapping : KeepsCreates getIdMapping := fun _ => rfl

theorem kc_srcQuery (env : Env) (q : String) : KeepsCreates (srcQuery env q) := by
  unfold srcQuery
  refine kc_bind (fun st => ?_) (fun rs => ?_)
  · show countCreates (st.calls ++ [Call.srcQuery q]) = countCreates st.calls
    rw [countCreates_append]
    rfl
  · cases env.queryRes q with
    | ok rs2 => exact kc_pure _
    | error e => exact kc_throw e

theorem kc_tgtQuery (env : Env) (q : String) : KeepsCreates (tgtQuery env q) := by
  unfold tgtQuery
  refine kc_bind (fun st => ?_) (fun rs => ?_)
  · show countCreates (st.calls ++ [Call.tgtQuery q]) = countCreates st.calls
    rw [countCreates_append]
    rfl
  · cases env.tgtQueryRes q with
    | ok rs2 => exact kc_pure _
    | error e => exact kc_throw e

theorem kc_fetchParentChunks (env : Env) (mkSoql : List String → String)
    (ids : List String) : KeepsCreates (fetchParentChunks env mkSoql ids) := by
  unfold fetchParentChunks
  exact kc_foldListM (fun acc chunk =>
    kc_bind (kc_srcQuery env (mkSoql chunk)) (fun rs => kc_pure _)) _ _

theorem kc_handleUpsertModeParents (env : Env) (parentObject : String)
    (parentIds : List String) (opts : DataTransferOptions) :
    KeepsCreates (handleUpsertModeParents env parentObject parentIds opts) := by
  unfold handleUpsertModeParents
  cases opts.externalIdMapping with
  | none => exact kc_pure _
  | some mapping =>
    dsimp only
    cases lookupStr mapping parentObject with
    | none => exact kc_pushError _
    | some ext =>
      dsimp only
      by_cases he : ext = ""
      · simp only [he, if_true]
        exact kc_pushError _
      · simp only [he, if_false]
        refine kc_attempt ?_ (fun e => kc_pushError _)
        refine kc_bind (kc_fetchParentChunks env _ parentIds) (fun parentRecords => ?_)
        refine kc_seqList (fun p => ?_) parentRecords
        cases getKey p ext with
        | none => exact kc_pure _
        | some v =>
          dsimp only
          by_cases hv : truthy v = true
          · simp only [hv, if_true]
            refine kc_attempt ?_ (fun e => kc_pushError _)
            refine kc_bind (kc_tgtQuery env _) (fun targetRecords => ?_)
            cases targetRecords with
            | nil => exact kc_pushError _
            | cons r0 rest => exact kc_putIdEntry _ _
          · simp only [hv, if_false, Bool.false_eq_true]
            exact kc_pure _

/-- Claim C10: in upsert mode, relationship resolution issues no create
call against the target: the number of create calls in the log is the
same before and after `ensureParentRecordsExistNew` (it only queries the
two systems), even when parent lookups find no match or fail. -/
theorem C10_upsert_resolution_creates_nothing (env : Env) (objectType : String)
    (md : List Field) (batch : List Rec) (opts : DataTransferOptions)
    (hmode : opts.transferMode = some Mode.upsert) :
    ∀ st, countCreates ((ensureParentRecordsExistNew env objectType md batch opts st).2.calls) =
      countCreates st.calls := by
  have : KeepsCreates (ensureParentRecordsExistNew env objectType md batch opts) := by
    unfold ensureParentRecordsExistNew
    by_cases h0 : (referenceFieldsOf md).isEmpty = true
    · simp only [h0, if_true]
      exact kc_pure _
    · simp only [h0, if_false]
      refine kc_bind kc_resetIdMapping (fun _ => ?_)
      refine kc_bind (kc_seqList (fun parentObject => ?_) _) (fun _ => kc_getIdMapping)
      by_cases h1 : (dedupFirst (((collectParentPairs (referenceFieldsOf md) batch).filter
          (fun pr => pr.1 == parentObject)).map Prod.snd)).isEmpty = true
      · simp only [h1, if_true]
        exact kc_pure _
      · simp only [h1, if_false]
        rw [hmode]
        exact kc_handleUpsertModeParents env _ _ opts
  exact fun st => this st

def C10md : List Field := [C1refF]

def C10batch : List Rec := [[("ParentId", Val.vstr "001A"), ("Name", Val.vstr "n")]]

theorem C10_witness :
    countCreates ((ensureParentRecordsExistNew C9env "Contact" C10md C10batch C2opts
      initSt).2.calls) = countCreates initSt.calls :=
  C10_upsert_resolution_creates_nothing C9env "Contact" C10md C10batch C2opts rfl initSt

/-! ## Claim C6 -/

theorem getKey_eq_none_of_forall (r : Rec) (k : String)
    (h : ∀ kv ∈ r, (kv.1 == k) = false) : getKey r k = none := by
  unfold getKey
  have hf : r.find? (fun kv => kv.1 == k) = none :=
    List.find?_eq_none.mpr (fun kv hkv => by simp [h kv hkv])
  rw [hf]
  rfl

/-- Looking a key up in a filtered record (with duplicate-free keys)
gives either nothing or exactly the original value. -/
theorem getKey_filter_of_nodup (p : String × Val → Bool) (k : String) :
    ∀ r : Rec, (r.map Prod.fst).Nodup →
    getKey (r.filter p) k = none ∨ getKey (r.filter p) k = getKey r k := by
  intro r
  induction r with
  | nil => intro _; left; rfl
  | cons kv rest ih =>
    intro hnd
    rw [List.map_cons, List.nodup_cons] at hnd
    obtain ⟨hk1, hk2⟩ := hnd
    by_cases hkk : (kv.1 == k) = true
    · have hkeq : kv.1 = k := by simpa using hkk
      by_cases hp : p kv = true
      · right
        rw [List.filter_cons_of_pos hp]
        unfold getKey
        rw [List.find?_cons, List.find?_cons, hkk]
      · left
        rw [List.filter_cons_of_neg (by simpa using hp)]
        refine getKey_eq_none_of_forall _ _ (fun kv2 hkv2 => ?_)
        have hmem : kv2 ∈ rest := List.mem_of_mem_filter hkv2
        have hne : kv2.1 ≠ k := by
          intro hc
          apply hk1
          rw [← hkeq] at hc
          exact hc ▸ List.mem_map_of_mem Prod.fst hmem
        simpa using hne
    · have hrest := ih hk2
      have hhd : getKey (kv :: rest) k = getKey rest k := by
        unfold getKey
        rw [List.find?_cons, Bool.eq_false_iff.mpr hkk]
      by_cases hp : p kv = true
      · rw [List.filter_cons_of_pos hp]
        have hhd2 : getKey (kv :: rest.filter p) k = getKey (rest.filter p) k := by
          unfold getKey
          rw [List.find?_cons, Bool.eq_false_iff.mpr hkk]
        rw [hhd, hhd2]
        exact hrest
      · rw [List.filter_cons_of_neg (by simpa using hp), hhd]
        exact hrest

/-- The trichotomy of claim C6 for the value of field `name` in a
written record `w`, relative to the original record and the identifier
map: absent, resolved through the map, or the unmodified source value. -/
def RefTri (idMap : IdMap) (orig : Rec) (name : String) (w : Rec) : Prop :=
  getKey w name = none ∨
  (∃ v tv, getKey orig name = some v ∧ idLookup idMap (asKey v) = some tv ∧
    getKey w name = some tv) ∨
  getKey w name = getKey orig name

theorem remapStep_tri (idMap : IdMap) (orig : Rec) (name : String) (acc : Rec)
    (ref : Field) (h : RefTri idMap orig name acc) :
    RefTri idMap orig name (remapStep idMap orig acc ref) := by
  unfold remapStep
  cases hw : getKey orig ref.name with
  | none => exact h
  | some w =>
    dsimp only
    by_cases htw : truthy w = true
    · simp only [htw, if_true]
      cases hlk : idLookup idMap (asKey w) with
      | none => exact h
      | some tv =>
        dsimp only
        by_cases htv : truthy tv = true
        · simp only [htv, if_true]
          by_cases hnm : ref.name = name
          · right; left
            refine ⟨w, tv, ?_, hlk, ?_⟩
            · rw [← hnm]; exact hw
            · rw [← hnm]
              exact getKey_setKey_self acc ref.name tv
          · unfold RefTri
            rw [getKey_setKey_ne acc ref.name name tv (fun hc => hnm hc.symm)]
            exact h
        · simp only [htv, if_false, Bool.false_eq_true]
          exact h
    · simp only [htw, if_false, Bool.false_eq_true]
      exact h

theorem remapRecord_tri (idMap : IdMap) (orig : Rec) (name : String) :
    ∀ (refFields : List Field) (cleaned : Rec), RefTri idMap orig name cleaned →
    RefTri idMap orig name (remapRecord refFields idMap cleaned orig) := by
  intro refFields
  induction refFields with
  | nil => intro cleaned h; exact h
  | cons ref rest ih =>
    intro cleaned h
    show RefTri idMap orig name (List.foldl (remapStep idMap orig) cleaned (ref :: rest))
    rw [List.foldl_cons]
    exact ih _ (remapStep_tri idMap orig name cleaned ref h)

/-- Claim C6: for a record with duplicate-free keys, the value of any
reference field of the schema in the payload produced by the sanitizing
and remapping pipeline is (a) absent, (b) the identifier-map image of
the record's source value, or (c) exactly the source value; nothing
else is ever written for a reference field. -/
theorem C6_reference_value_trichotomy (md : List Field) (idMap : IdMap) (orig : Rec)
    (ref : Field) (href : ref ∈ referenceFieldsOf md)
    (hnd : (orig.map Prod.fst).Nodup) :
    getKey (remapRecord (referenceFieldsOf md) idMap (removeSystemFields orig) orig)
      ref.name = none ∨
    (∃ v tv, getKey orig ref.name = some v ∧ idLookup idMap (asKey v) = some tv ∧
      getKey (remapRecord (referenceFieldsOf md) idMap (removeSystemFields orig) orig)
        ref.name = some tv) ∨
    getKey (remapRecord (referenceFieldsOf md) idMap (removeSystemFields orig) orig)
      ref.name = getKey orig ref.name := by
  have hinit : RefTri idMap orig ref.name (removeSystemFields orig) := by
    unfold RefTri
    rcases getKey_filter_of_nodup _ ref.name orig hnd with h | h
    · left; exact h
    · right; right; exact h
  exact remapRecord_tri idMap orig ref.name (referenceFieldsOf md)
    (removeSystemFields orig) hinit

def C6orig : Rec :=
  [("Id", Val.vstr "003S"), ("ParentId", Val.vstr "001A"), ("Name", Val.vstr "n")]

theorem C6_witness :
    getKey (remapRecord (referenceFieldsOf C10md) [("001A", Val.vstr "001T")]
      (removeSystemFields C6orig) C6orig) "ParentId" = none ∨
    (∃ v tv, getKey C6orig "ParentId" = some v ∧
      idLookup [("001A", Val.vstr "001T")] (asKey v) = some tv ∧
      getKey (remapRecord (referenceFieldsOf C10md) [("001A", Val.vstr "001T")]
        (removeSystemFields C6orig) C6orig) "ParentId" = some tv) ∨
    getKey (remapRecord (referenceFieldsOf C10md) [("001A", Val.vstr "001T")]
      (removeSystemFields C6orig) C6orig) "ParentId" = getKey C6orig "ParentId" :=
  C6_reference_value_trichotomy C10md [("001A", Val.vstr "001T")] C6orig C1refF
    (by decide) (by decide)

/-! ## Claim C4 -/

/-- A computation ending in `finishSuccess` can only return a result
whose `success` equals the emptiness of its error list; and if it fails
instead, the failure came from the prefix. -/
theorem bind_finish_ok {w : M Unit} {st : St} {r : TransferResult} {st1 : St}
    (h : (w >>= fun _ => finishSuccess) st = (Except.ok r, st1)) :
    r.success = r.errors.isEmpty := by
  rw [bind_app] at h
  rcases hw : w st with ⟨res, st2⟩
  rw [hw] at h
  cases res with
  | ok a =>
    unfold finishSuccess at h
    injection h with h1 h2
    injection h1 with h3
    rw [← h3]
  | error e => cases h

theorem bind_finish_error {w : M Unit} (hw : Tame w) {st : St} {e : String} {st1 : St}
    (h : (w >>= fun _ => finishSuccess) st = (Except.error e, st1)) :
    st1.result.success = st.result.success := by
  rw [bind_app] at h
  rcases hwe : w st with ⟨res, st2⟩
  rw [hwe] at h
  cases res with
  | ok a =>
    unfold finishSuccess at h
    cases h
  | error e2 =>
    injection h with h1 h2
    have := (hw st).1
    rw [hwe] at this
    rw [← h2]
    exact this

/-- The two facts claim C4 needs about the body of `transferData`. -/
def GoodBody (m : M TransferResult) : Prop :=
  (∀ st r st1, m st = (Except.ok r, st1) → r.success = r.errors.isEmpty) ∧
  (∀ st e st1, m st = (Except.error e, st1) → st1.result.success = st.result.success)

theorem goodBody_bind_finish {w : M Unit} (hw : Tame w) :
    GoodBody (w >>= fun _ => finishSuccess) :=
  ⟨fun _ _ _ h => bind_finish_ok h, fun _ _ _ h => bind_finish_error hw h⟩

theorem goodBody_throw (e0 : String) : GoodBody (throwM e0) := by
  constructor
  · intro st r st1 h
    cases h
  · intro st e st1 h
    injection h with h1 h2
    rw [← h2]

theorem goodBody_transferObjectTypesPath (env : Env) (opts : DataTransferOptions) :
    GoodBody (transferObjectTypesPath env opts) := by
  unfold transferObjectTypesPath
  cases opts.objectTypes with
  | none => exact goodBody_throw _
  | some ts =>
    exact goodBody_bind_finish
      (tame_seqList (fun a => tame_transferObjectRecords env opts a) ts)

/-- Claim C4: every completed run's `TransferResult` has `success` true
exactly when its accumulated error list is empty — success is defined by
the absence of errors, not by how many records were transferred. -/
theorem C4_success_iff_no_errors (env : Env) (opts : DataTransferOptions) :
    (runTransfer env opts).1.success = (runTransfer env opts).1.errors.isEmpty := by
  unfold runTransfer transferData
  have hbody : GoodBody
      (match (normalizeOptions opts).customQuery with
       | some q =>
         if strTrim q ≠ "" then do
           transferByQuery env q (normalizeOptions opts)
           finishSuccess
         else transferObjectTypesPath env (normalizeOptions opts)
       | none => transferObjectTypesPath env (normalizeOptions opts)) := by
    cases (normalizeOptions opts).customQuery with
    | none => exact goodBody_transferObjectTypesPath env _
    | some q =>
      dsimp only
      by_cases hc : strTrim q ≠ ""
      · rw [if_pos hc]
        exact goodBody_bind_finish (tame_transferByQuery env q _)
      · rw [if_neg hc]
        exact goodBody_transferObjectTypesPath env _
  set body := (match (normalizeOptions opts).customQuery with
       | some q =>
         if strTrim q ≠ "" then do
           transferByQuery env q (normalizeOptions opts)
           finishSuccess
         else transferObjectTypesPath env (normalizeOptions opts)
       | none => transferObjectTypesPath env (normalizeOptions opts)) with hbodydef
  show (match (attempt body _) initSt with
        | (Except.ok r, st) => (r, st.calls)
        | (Except.error _, st) => (st.result, st.calls)).1.success = _
  unfold attempt
  rcases hrun : body initSt with ⟨res, st1⟩
  cases res with
  | ok r =>
    dsimp only
    exact hbody.1 initSt r st1 hrun
  | error e =>
    dsimp only
    have hsucc : st1.result.success = false := hbody.2 initSt e st1 hrun
    have hne : (st1.result.errors ++ ["Transfer failed: " ++ e]).isEmpty = false := by
      simp
    show st1.result.success =
      (st1.result.errors ++ ["Transfer failed: " ++ e]).isEmpty
    rw [hsucc, hne]

/-! ## Claim C3 -/

theorem srcDescribe_error (env : Env) (t : String) (e : String)
    (he : env.describeRes t = Except.error e) :
    ∀ st, srcDescribe env t st =
      (Except.error e, {st with calls := st.calls ++ [Call.srcDescribe t]}) := by
  intro st
  unfold srcDescribe
  rw [bind_app]
  dsimp only [logCall]
  rw [he]
  rfl

theorem calls_keep_finishSuccess : ∀ st (c : Call), c ∈ st.calls →
    c ∈ (finishSuccess st).2.calls :=
  fun _ _ h => h

theorem mem_calls_bind2 {α β : Type} {x : M α} {f : α → M β} {c : Call}
    (hx : ∀ st, c ∈ (x st).2.calls)
    (hf : ∀ a st, c ∈ st.calls → c ∈ ((f a) st).2.calls) :
    ∀ st, c ∈ ((x >>= f) st).2.calls := by
  intro st
  rw [bind_app]
  rcases hxe : x st with ⟨res, st1⟩
  have h1 : c ∈ st1.calls := by have := hx st; rw [hxe] at this; exact this
  cases res with
  | ok a => exact hf a st1 h1
  | error e => exact h1

/-- Claim C3: with initialized connections, each entity type's pipeline
is fault-isolated: `transferObjectRecords` always returns (never throws);
a schema-fetch failure for one entity type is converted to a string and
appended as exactly one error while processing continues; the whole
`transferData` always produces a `TransferResult` (only connection
establishment, outside this embedding, can abort a run); and every
requested entity type is reached — its describe call appears in the
run's call log no matter what the environment answered for the others. -/
theorem C3_per_entity_fault_isolation (env : Env) (opts : DataTransferOptions)
    (ts : List String) (t : String)
    (hq : opts.customQuery = none) (hts : opts.objectTypes = some ts) (hmem : t ∈ ts) :
    (∃ r st1, transferData env opts initSt = (Except.ok r, st1)) ∧
    (∀ st, ∃ st1, transferObjectRecords env opts t st = (Except.ok (), st1)) ∧
    (∀ e, env.describeRes t = Except.error e → ∀ st,
      transferObjectRecords env opts t st =
        (Except.ok (), {st with
          result := {st.result with errors := st.result.errors ++
            ["Error transferring " ++ t ++ ": " ++ e]},
          calls := st.calls ++ [Call.srcDescribe t]})) ∧
    Call.srcDescribe t ∈ (runTransfer env opts).2 := by
  refine ⟨alwaysOk_transferData env opts initSt, ?_, ?_, ?_⟩
  · intro st
    obtain ⟨a, st1, h⟩ := alwaysOk_transferObjectRecords env opts t st
    cases a
    exact ⟨st1, h⟩
  · intro e he st
    unfold transferObjectRecords
    unfold attempt
    rw [bind_app]
    rw [srcDescribe_error env t e he st]
    dsimp only
    rfl
  · have hglobal : ∀ st, Call.srcDescribe t ∈ ((transferData env opts) st).2.calls := by
      intro st
      unfold transferData
      refine mem_calls_attempt ?_
        (fun e => tame_bind (tame_pushError _) (fun _ => tame_getResult)) st
      have h1 : (normalizeOptions opts).customQuery = none := by
        rw [normalizeOptions_customQuery, hq]
      rw [h1]
      intro st2
      unfold transferObjectTypesPath
      have h2 : (normalizeOptions opts).objectTypes = some ts := by
        rw [normalizeOptions_objectTypes, hts]
      rw [h2]
      dsimp only
      exact mem_calls_bind2
        (mem_calls_seqList_transfer env (normalizeOptions opts) ts hmem)
        (fun _ st3 h => h) st2
    unfold runTransfer
    rcases hrun : transferData env opts initSt with ⟨res, st1⟩
    have := hglobal initSt
    rw [hrun] at this
    cases res with
    | ok r => exact this
    | error e => exact this

def C3env : Env :=
  {describeRes := fun t => if t == "Broken" then .error "boom" else .ok [],
   queryRes := fun _ => .ok [],
   tgtQueryRes := fun _ => .ok [],
   createSingle := fun _ _ => .ok {success := true, id := some "X", errors := .eundef},
   createMulti := fun _ rs => .ok (rs.map (fun _ =>
     {success := true, id := some "X", errors := .eundef}))}

def C3opts : DataTransferOptions :=
  {objectTypes := some ["Broken", "Account"], includeRelationships := false,
   batchSize := 200, recordLimits := none, customQuery := none,
   externalIdMapping := none, transferMode := none}

theorem C3_witness :
    (∃ r st1, transferData C3env C3opts initSt = (Except.ok r, st1)) ∧
    (transferObjectRecords C3env C3opts "Broken" initSt =
      (Except.ok (), {initSt with
        result := {initialResult with errors := ["Error transferring Broken: boom"]},
        calls := [Call.srcDescribe "Broken"]})) ∧
    Call.srcDescribe "Account" ∈ (runTransfer C3env C3opts).2 := by
  have hB := C3_per_entity_fault_isolation C3env C3opts ["Broken", "Account"] "Broken"
    rfl rfl (by decide)
  have hA := C3_per_entity_fault_isolation C3env C3opts ["Broken", "Account"] "Account"
    rfl rfl (by decide)
  refine ⟨hB.1, ?_, hA.2.2.2⟩
  have h3 := hB.2.2.1 "boom" rfl initSt
  exact h3

/-! ## Claim C5 -/

/-- An environment in which every write succeeds: single creates report
success, composite creates report one success per record sent. -/
def allSuccessEnv (env : Env) : Prop :=
  (∀ t r, ∃ res, env.createSingle t r = Except.ok res ∧ res.success = true) ∧
  (∀ t rs, ∃ l, env.createMulti t rs = Except.ok l ∧ l.length = rs.length ∧
    ∀ s ∈ l, s.success = true)

theorem handleCreateOutcome_multi_allOk (t : String) (l : List SaveResult)
    (hall : ∀ s ∈ l, s.success = true) :
    ∀ st, handleCreateOutcome t (.multi l) st =
      (Except.ok (), {st with result := {st.result with
        recordsTransferred := st.result.recordsTransferred + l.length}}) := by
  intro st
  unfold handleCreateOutcome
  dsimp only
  have h1 : l.filter (fun r => r.success) = l :=
    List.filter_eq_self.mpr (fun a ha => hall a ha)
  have h2 : l.filter (fun r => !r.success) = [] := by
    rw [List.filter_eq_nil]
    intro a ha
    rw [hall a ha]
    decide
  rw [h1, h2]
  rfl

theorem handleCreateOutcome_single_ok (t : String) (s : SaveResult)
    (hs : s.success = true) :
    ∀ st, handleCreateOutcome t (.single s) st =
      (Except.ok (), {st with result := {st.result with
        recordsTransferred := st.result.recordsTransferred + 1}}) := by
  intro st
  unfold handleCreateOutcome
  simp only [hs, if_true]
  rfl

/-- Under an all-success environment and with relationship handling off,
one batch iteration issues exactly one create call (sized by the batch)
and counts every record of the batch as transferred; errors are
untouched. -/
theorem processOneBatch_allOk (env : Env) (opts : DataTransferOptions) (t : String)
    (md : List Field) (batch : List Rec)
    (hrel : opts.includeRelationships = false) (hok : allSuccessEnv env) :
    ∀ st, processOneBatch env opts t md batch st =
      (Except.ok (), {st with
        result := {st.result with
          recordsTransferred := st.result.recordsTransferred + batch.length},
        calls := st.calls ++ [Call.tgtCreate t batch.length]}) := by
  intro st
  unfold processOneBatch
  rw [bind_app]
  have hres : resolveBatch env opts t md batch (batch.map removeSystemFields) st =
      (Except.ok (batch.map removeSystemFields), st) := by
    unfold resolveBatch
    rw [hrel]
    rfl
  rw [hres]
  dsimp only
  rw [bind_app]
  cases batch with
  | nil =>
    obtain ⟨l, hml, hlen, _⟩ := hok.2 t []
    have hlnil : l = [] := List.length_eq_zero.mp (by rw [hlen]; rfl)
    subst hlnil
    have hcreate : tgtCreate env t (List.map removeSystemFields []) st =
        (Except.ok (.multi []),
         {st with calls := st.calls ++ [Call.tgtCreate t 0]}) := by
      unfold tgtCreate
      rw [bind_app]
      dsimp only [logCall]
      simp only [List.map_nil, List.length_nil]
      rw [hml]
      rfl
    rw [hcreate]
    dsimp only
    rw [handleCreateOutcome_multi_allOk t [] (by intro s hs; cases hs) _]
    simp
  | cons b1 rest =>
    cases rest with
    | nil =>
      obtain ⟨res, hres1, hsucc⟩ := hok.1 t (removeSystemFields b1)
      have hcreate : tgtCreate env t (List.map removeSystemFields [b1]) st =
          (Except.ok (.single res),
           {st with calls := st.calls ++ [Call.tgtCreate t 1]}) := by
        unfold tgtCreate
        rw [bind_app]
        dsimp only [logCall]
        simp only [List.map_cons, List.map_nil, List.length_cons, List.length_nil]
        rw [hres1]
        rfl
      rw [hcreate]
      dsimp only
      rw [handleCreateOutcome_single_ok t res hsucc _]
      simp
    | cons b2 rest2 =>
      obtain ⟨l, hml, hlen, hall⟩ :=
        hok.2 t (List.map removeSystemFields (b1 :: b2 :: rest2))
      have hcreate : tgtCreate env t (List.map removeSystemFields (b1 :: b2 :: rest2)) st =
          (Except.ok (.multi l),
           {st with calls := st.calls ++
             [Call.tgtCreate t (b1 :: b2 :: rest2).length]}) := by
        unfold tgtCreate
        rw [bind_app]
        dsimp only [logCall]
        have hmap : List.map removeSystemFields (b1 :: b2 :: rest2) =
            removeSystemFields b1 :: removeSystemFields b2 ::
              List.map removeSystemFields rest2 := by
          simp
        rw [hmap]
        dsimp only
        rw [← hmap, hml]
        dsimp only
        simp only [List.length_map]
        rfl
      rw [hcreate]
      dsimp only
      rw [handleCreateOutcome_multi_allOk t l hall _]
      have hlb : l.length = (b1 :: b2 :: rest2).length := by
        rw [hlen, List.length_map]
      rw [hlb]

/-- The batch loop under an all-success environment: one create call
per chunk, every chunk's records counted. -/
theorem seqList_batches_allOk (env : Env) (opts : DataTransferOptions) (t : String)
    (md : List Field) (hrel : opts.includeRelationships = false)
    (hok : allSuccessEnv env) :
    ∀ (cs : List (List Rec)) (st : St),
      seqList cs (processOneBatch env opts t md) st =
        (Except.ok (), {st with
          result := {st.result with recordsTransferred :=
            st.result.recordsTransferred + (cs.map List.length).sum},
          calls := st.calls ++ cs.map (fun c => Call.tgtCreate t c.length)}) := by
  intro cs
  induction cs with
  | nil =>
    intro st
    show (Except.ok (), st) = _
    simp
  | cons c cs ih =>
    intro st
    show ((processOneBatch env opts t md c) >>=
      (fun _ => seqList cs (processOneBatch env opts t md))) st = _
    rw [bind_app]
    rw [processOneBatch_allOk env opts t md c hrel hok st]
    dsimp only
    rw [ih _]
    simp only [List.map_cons, List.sum_cons]
    simp [Nat.add_assoc, List.append_assoc]

theorem attempt_ok {α : Type} {x : M α} {h : String → M α} {st : St} {a : α} {st1 : St}
    (hx : x st = (Except.ok a, st1)) : attempt x h st = (Except.ok a, st1) := by
  unfold attempt
  rw [hx]

theorem srcDescribe_ok (env : Env) (t : String) (md : List Field)
    (hmd : env.describeRes t = Except.ok md) :
    ∀ st, srcDescribe env t st =
      (Except.ok md, {st with calls := st.calls ++ [Call.srcDescribe t]}) := by
  intro st
  unfold srcDescribe
  rw [bind_app]
  dsimp only [logCall]
  rw [hmd]
  rfl

theorem srcQuery_ok (env : Env) (q : String) (rs : List Rec)
    (hq : env.queryRes q = Except.ok rs) :
    ∀ st, srcQuery env q st =
      (Except.ok rs, {st with calls := st.calls ++ [Call.srcQuery q]}) := by
  intro st
  unfold srcQuery
  rw [bind_app]
  dsimp only [logCall]
  rw [hq]
  rfl

theorem effectiveBatchSize_pos (opts : DataTransferOptions) :
    1 ≤ effectiveBatchSize opts := by
  unfold effectiveBatchSize
  by_cases h : opts.batchSize = 0
  · rw [if_pos h]; omega
  · rw [if_neg h]; omega

/-- A full entity-type transfer under an all-success environment:
describe, query, then one create per chunk, with every extracted record
counted as transferred and no error recorded. -/
theorem transferObjectRecords_allOk (env : Env) (opts : DataTransferOptions) (t : String)
    (md : List Field) (recs : List Rec)
    (hrel : opts.includeRelationships = false) (hok : allSuccessEnv env)
    (hmd : env.describeRes t = Except.ok md)
    (hqr : env.queryRes (buildExtractionQuery t md false (limitClauseFor opts t)) =
      Except.ok recs) :
    ∀ st, transferObjectRecords env opts t st =
      (Except.ok (), {st with
        result := {st.result with recordsTransferred :=
          st.result.recordsTransferred + recs.length},
        calls := ((st.calls ++ [Call.srcDescribe t]) ++
          [Call.srcQuery (buildExtractionQuery t md false (limitClauseFor opts t))]) ++
          (chunks (effectiveBatchSize opts) recs).map
            (fun c => Call.tgtCreate t c.length)}) := by
  intro st
  unfold transferObjectRecords
  refine attempt_ok ?_
  rw [bind_app]
  rw [srcDescribe_ok env t md hmd st]
  dsimp only
  rw [hrel]
  rw [bind_app]
  rw [srcQuery_ok env _ recs hqr _]
  dsimp only
  by_cases h0 : recs.length = 0
  · rw [if_pos h0]
    have hnil : recs = [] := List.length_eq_zero.mp h0
    subst hnil
    rw [chunks_nil]
    simp only [List.map_nil, List.length_nil, List.append_nil, Nat.add_zero]
    rfl
  · rw [if_neg h0]
    rw [seqList_batches_allOk env opts t md hrel hok _ _]
    rw [chunks_sum_length (effectiveBatchSize opts) (effectiveBatchSize_pos opts)
      recs.length recs (Nat.le_refl _)]

theorem normalizeOptions_includeRelationships (opts : DataTransferOptions) :
    (normalizeOptions opts).includeRelationships = opts.includeRelationships := by
  unfold normalizeOptions
  cases opts.transferMode <;> rfl

theorem normalizeOptions_batchSize (opts : DataTransferOptions) :
    (normalizeOptions opts).batchSize = opts.batchSize := by
  unfold normalizeOptions
  cases opts.transferMode <;> rfl

theorem normalizeOptions_recordLimits (opts : DataTransferOptions) :
    (normalizeOptions opts).recordLimits = opts.recordLimits := by
  unfold normalizeOptions
  cases opts.transferMode <;> rfl

theorem limitClauseFor_normalize (opts : DataTransferOptions) (t : String) :
    limitClauseFor (normalizeOptions opts) t = limitClauseFor opts t := by
  unfold limitClauseFor
  rw [normalizeOptions_recordLimits]

theorem countCreates_map_create (t : String) (cs : List (List Rec)) :
    countCreates (cs.map (fun c => Call.tgtCreate t c.length)) = cs.length := by
  induction cs with
  | nil => rfl
  | cons c rest ih =>
    unfold countCreates at ih ⊢
    rw [List.map_cons, List.countP_cons]
    rw [ih]
    rfl

/-- Claim C5: for an entity-type transfer of n extracted records with
positive batch size b under an all-success environment, exactly
⌈n / b⌉ create calls are issued against the target, every record is
counted as transferred, no error is recorded, and the run succeeds. -/
theorem C5_batch_write_counts (env : Env) (opts : DataTransferOptions) (t : String)
    (md : List Field) (recs : List Rec) (b : Nat)
    (hq0 : opts.customQuery = none) (hts : opts.objectTypes = some [t])
    (hrel : opts.includeRelationships = false)
    (hb : opts.batchSize = b) (hb1 : 1 ≤ b)
    (hok : allSuccessEnv env)
    (hmd : env.describeRes t = Except.ok md)
    (hqr : env.queryRes (buildExtractionQuery t md false (limitClauseFor opts t)) =
      Except.ok recs) :
    (runTransfer env opts).1 =
      {success := true, recordsTransferred := recs.length, errors := []} ∧
    countCreates (runTransfer env opts).2 = (recs.length + b - 1) / b := by
  have hrel2 : (normalizeOptions opts).includeRelationships = false := by
    rw [normalizeOptions_includeRelationships, hrel]
  have hqr2 : env.queryRes (buildExtractionQuery t md false
      (limitClauseFor (normalizeOptions opts) t)) = Except.ok recs := by
    rw [limitClauseFor_normalize]
    exact hqr
  have hbs : effectiveBatchSize (normalizeOptions opts) = b := by
    unfold effectiveBatchSize
    rw [normalizeOptions_batchSize, hb]
    rw [if_neg (by omega)]
  have htor := transferObjectRecords_allOk env (normalizeOptions opts) t md recs
    hrel2 hok hmd hqr2 initSt
  have hseq : seqList [t] (transferObjectRecords env (normalizeOptions opts)) initSt =
      (Except.ok (), {initSt with
        result := {initSt.result with recordsTransferred :=
          initSt.result.recordsTransferred + recs.length},
        calls := ((initSt.calls ++ [Call.srcDescribe t]) ++
          [Call.srcQuery (buildExtractionQuery t md false
            (limitClauseFor (normalizeOptions opts) t))]) ++
          (chunks (effectiveBatchSize (normalizeOptions opts)) recs).map
            (fun c => Call.tgtCreate t c.length)}) := by
    show ((transferObjectRecords env (normalizeOptions opts) t) >>=
      (fun _ => seqList [] (transferObjectRecords env (normalizeOptions opts)))) initSt = _
    rw [bind_app, htor]
    rfl
  unfold runTransfer transferData
  have h1 : (normalizeOptions opts).customQuery = none := by
    rw [normalizeOptions_customQuery, hq0]
  rw [h1]
  dsimp only
  unfold transferObjectTypesPath
  have h2 : (normalizeOptions opts).objectTypes = some [t] := by
    rw [normalizeOptions_objectTypes, hts]
  rw [h2]
  dsimp only
  rw [attempt_ok (by rw [bind_app, hseq]; rfl)]
  dsimp only
  constructor
  · show ({(initSt.result) with
      recordsTransferred := initSt.result.recordsTransferred + recs.length,
      success := _} : TransferResult) = _
    simp [initSt, initialResult]
  · rw [countCreates_append, countCreates_append, countCreates_append]
    rw [countCreates_map_create]
    rw [chunks_length (effectiveBatchSize (normalizeOptions opts))
      (effectiveBatchSize_pos _) recs.length recs (Nat.le_refl _)]
    rw [hbs]
    simp [countCreates, initSt]

def C5md : List Field :=
  [{name := "FirstName", ftype := "string", createable := true, updateable := true,
    calculated := false, autoNumber := false, relationshipName := none, referenceTo := []}]

def C5recs : List Rec :=
  [[("FirstName", Val.vstr "a")], [("FirstName", Val.vstr "b")],
   [("FirstName", Val.vstr "c")], [("FirstName", Val.vstr "d")],
   [("FirstName", Val.vstr "e")]]

def C5env : Env :=
  {describeRes := fun t => if t == "Contact" then .ok C5md else .error "no such object",
   queryRes := fun _ => .ok C5recs,
   tgtQueryRes := fun _ => .ok [],
   createSingle := fun _ _ => .ok {success := true, id := some "X", errors := .eundef},
   createMulti := fun _ rs => .ok (rs.map (fun _ =>
     {success := true, id := some "X", errors := .eundef}))}

def C5opts : DataTransferOptions :=
  {objectTypes := some ["Contact"], includeRelationships := false, batchSize := 2,
   recordLimits := none, customQuery := none, externalIdMapping := none,
   transferMode := none}

theorem C5env_allSuccess : allSuccessEnv C5env := by
  constructor
  · intro t r
    exact ⟨{success := true, id := some "X", errors := .eundef}, rfl, rfl⟩
  · intro t rs
    refine ⟨rs.map (fun _ => {success := true, id := some "X", errors := .eundef}),
      rfl, List.length_map _ _, ?_⟩
    intro s hs
    obtain ⟨a, -, rfl⟩ := List.mem_map.mp hs
    rfl

theorem C5_witness :
    (runTransfer C5env C5opts).1 =
      {success := true, recordsTransferred := 5, errors := []} ∧
    countCreates (runTransfer C5env C5opts).2 = 3 := by
  have h := C5_batch_write_counts C5env C5opts "Contact" C5md C5recs 2
    rfl rfl rfl rfl (by omega) C5env_allSuccess rfl rfl
  exact ⟨h.1, h.2⟩

end SF
